import Mathlib

/-!
# GPU stream handler and aggregator (`pkg/gpu/stream.go`, `pkg/gpu/aggregator.go`)

A shallow embedding of the per-stream event reducer `streamHandler` and of the
per-process `aggregator`, and proofs of their specified behaviour.

Conventions of the embedding:

* Go `uint64`/`uint32` values are natural numbers; every arithmetic operation that
  can leave the machine range carries its explicit reduction (`% 2 ^ 32`,
  `% 2 ^ 64`).  Comparisons, `min` and `max` never leave the range.
* A Go slice is a `List`; `append` adds at the end.  Elements behind pointers
  (`[]*kernelSpan`, `[]*memoryAllocation`) are embedded as values.
* The Go map `map[uint64]CudaMemEvent` is an association list read by `GoMap.get`,
  written by `GoMap.set` and erased by `GoMap.delete`; `range` over the map visits
  the entries of the list.
* A method with a pointer receiver becomes a function returning the new handler
  (and the returned value, if any).
* The interval accumulator `tseriesBuilder` that `getStats` fills is not part of the
  sources; it is modelled from its specification (sorted deltas, running prefix sum).
-/

namespace gpu

/-! ## Machine constants -/

/-- Value of `math.MaxUint64`. -/
def MaxUint64 : Nat := 2 ^ 64 - 1

/-! ## Go maps as association lists -/

/-- Association-list representation of a Go `map[uint64]V`. -/
abbrev GoMap (V : Type) := List (Nat × V)

namespace GoMap

/-- Lookup `v, ok := m[k]`: `some v` when `ok`, otherwise `none`. -/
def get {V : Type} : GoMap V → Nat → Option V
  | [], _ => none
  | (k', v) :: m, k => if k' = k then some v else get m k

/-- Assignment `m[k] = v`: overwrites the entry of `k` when there is one, adds one otherwise. -/
def set {V : Type} : GoMap V → Nat → V → GoMap V
  | [], k, v => [(k, v)]
  | (k', v') :: m, k, v => if k' = k then (k, v) :: m else (k', v') :: set m k v

/-- Builtin `delete(m, k)`: no entry for `k` is left. -/
def delete {V : Type} (m : GoMap V) (k : Nat) : GoMap V :=
  m.filter (fun e => decide (e.1 ≠ k))

end GoMap

/-! ## Event types of package `gpuebpf` -/

/-- Modelled from the spec: the generated type `gpuebpf.Dim3` is not part of the sources;
the three `uint32` components are the ones `getCurrentKernelSpan` reads. -/
structure Dim3 where
  X : Nat
  Y : Nat
  Z : Nat
deriving DecidableEq

/-- Modelled from the spec: the generated type `gpuebpf.CudaEventHeader` is not part of the
sources; `Ktime_ns` (a `uint64` kernel timestamp) is the only field the stream handler reads. -/
structure CudaEventHeader where
  Ktime_ns : Nat
deriving DecidableEq

/-- Modelled from the spec: the generated type `gpuebpf.CudaKernelLaunch` is not part of the
sources; a launch carries a timestamp, thread-block dimensions and grid dimensions. -/
structure CudaKernelLaunch where
  Header : CudaEventHeader
  Block_size : Dim3
  Grid_size : Dim3
deriving DecidableEq

/-- Modelled from the spec: the generated type `gpuebpf.CudaMemEvent` is not part of the
sources; a memory event carries address, size, timestamp and a kind tag (`Type` in Go, `Type_` here). -/
structure CudaMemEvent where
  Header : CudaEventHeader
  Size : Nat
  Addr : Nat
  Type_ : Nat
deriving DecidableEq

/-- Modelled from the spec: the constant `gpuebpf.CudaMemAlloc` is not part of the sources;
it is the kind tag of an allocate event.  Every other tag is handled as a free. -/
def CudaMemAlloc : Nat := 0

/-! ## Data model of `stream.go` -/

/-- Unique identifier for a CUDA stream. -/
structure streamKey where
  pid : Nat
  stream : Nat
deriving DecidableEq

/-- Span of time during which one or more kernels were running until a synchronization. -/
structure kernelSpan where
  startKtime : Nat
  endKtime : Nat
  avgThreadCount : Nat
  numKernels : Nat
deriving DecidableEq

/-- Memory allocation record. -/
structure memoryAllocation where
  startKtime : Nat
  endKtime : Nat
  size : Nat
  isLeaked : Bool
deriving DecidableEq

/-- Kernel spans and allocations for a stream. -/
structure streamData where
  key : streamKey
  spans : List kernelSpan
  allocations : List memoryAllocation
deriving DecidableEq

/-- Receiver of the events of a single CUDA stream. -/
structure streamHandler where
  kernelLaunches : List CudaKernelLaunch
  memAllocEvents : List (Nat × CudaMemEvent)
  kernelSpans : List kernelSpan
  allocations : List memoryAllocation
  processEnded : Bool
deriving DecidableEq

/-- Zero value of `streamKey`. -/
def streamKey.zero : streamKey := { pid := 0, stream := 0 }

/-- Constructor `newStreamHandler`: every slice is nil, the map is empty. -/
def newStreamHandler : streamHandler :=
  { kernelLaunches := [], memAllocEvents := [], kernelSpans := [], allocations := [],
    processEnded := false }

namespace streamHandler

/-- Method `handleKernelLaunch`: appends a copy of the event to the pending launches. -/
def handleKernelLaunch (sh : streamHandler) (event : CudaKernelLaunch) : streamHandler :=
  { sh with kernelLaunches := sh.kernelLaunches ++ [event] }

/-- Method `handleMemEvent`. -/
def handleMemEvent (sh : streamHandler) (event : CudaMemEvent) : streamHandler :=
  if event.Type_ = CudaMemAlloc then
    { sh with memAllocEvents := GoMap.set sh.memAllocEvents event.Addr event }
  else
    match GoMap.get sh.memAllocEvents event.Addr with
    | none => sh
    | some alloc =>
      let data : memoryAllocation :=
        { startKtime := alloc.Header.Ktime_ns
          endKtime := event.Header.Ktime_ns
          size := alloc.Size
          isLeaked := false }
      { sh with
        allocations := sh.allocations ++ [data]
        memAllocEvents := GoMap.delete sh.memAllocEvents event.Addr }

/-- The `uint32` product `launch.Block_size.X * launch.Block_size.Y * launch.Block_size.Z`. -/
def blockSize (launch : CudaKernelLaunch) : Nat :=
  ((launch.Block_size.X * launch.Block_size.Y) % 2 ^ 32 * launch.Block_size.Z) % 2 ^ 32

/-- The `uint32` product `launch.Grid_size.X * launch.Grid_size.Y * launch.Grid_size.Z`. -/
def blockCount (launch : CudaKernelLaunch) : Nat :=
  ((launch.Grid_size.X * launch.Grid_size.Y) % 2 ^ 32 * launch.Grid_size.Z) % 2 ^ 32

/-- The `uint64` product `uint64(blockSize) * uint64(blockCount)` added for one launch. -/
def launchThreads (launch : CudaKernelLaunch) : Nat :=
  (blockSize launch * blockCount launch) % 2 ^ 64

/-- One iteration of the loop of `getCurrentKernelSpan`.  The counter `numKernels` is
bounded by the length of the slice, hence far below `2 ^ 64`: its increment has no
reduction. -/
def spanStep (maxTime : Nat) (span : kernelSpan) (launch : CudaKernelLaunch) : kernelSpan :=
  if launch.Header.Ktime_ns ≥ maxTime then span
  else
    { startKtime := min launch.Header.Ktime_ns span.startKtime
      endKtime := max launch.Header.Ktime_ns span.endKtime
      avgThreadCount := (span.avgThreadCount + launchThreads launch) % 2 ^ 64
      numKernels := span.numKernels + 1 }

/-- Initial value of `span` in `getCurrentKernelSpan`. -/
def spanInit (maxTime : Nat) : kernelSpan :=
  { startKtime := MaxUint64, endKtime := maxTime, avgThreadCount := 0, numKernels := 0 }

/-- Method `getCurrentKernelSpan`: `none` is the nil result. -/
def getCurrentKernelSpan (sh : streamHandler) (maxTime : Nat) : Option kernelSpan :=
  let span := sh.kernelLaunches.foldl (spanStep maxTime) (spanInit maxTime)
  if span.numKernels = 0 then none
  else some { span with avgThreadCount := span.avgThreadCount / span.numKernels }

/-- Method `markSynchronization`. -/
def markSynchronization (sh : streamHandler) (ts : Nat) : streamHandler :=
  match sh.getCurrentKernelSpan ts with
  | none => sh
  | some span =>
    { sh with
      kernelSpans := sh.kernelSpans ++ [span]
      kernelLaunches := sh.kernelLaunches.filter (fun launch => decide (launch.Header.Ktime_ns ≥ ts)) }

/-- Method `getPastData`: the returned snapshot (`none` for nil) and the handler afterwards. -/
def getPastData (sh : streamHandler) (flush : Bool) : Option streamData × streamHandler :=
  if sh.kernelSpans.length = 0 ∧ sh.allocations.length = 0 then (none, sh)
  else
    let data : streamData :=
      { key := streamKey.zero, spans := sh.kernelSpans, allocations := sh.allocations }
    if flush then (some data, { sh with kernelSpans := [], allocations := [] })
    else (some data, sh)

/-- Method `getCurrentData`: the handler is only read. -/
def getCurrentData (sh : streamHandler) (now : Nat) : Option streamData :=
  if sh.kernelLaunches.length = 0 ∧ sh.memAllocEvents.length = 0 then none
  else
    let spans : List kernelSpan :=
      match sh.getCurrentKernelSpan now with
      | none => []
      | some span => [span]
    let allocations : List memoryAllocation :=
      sh.memAllocEvents.map (fun e =>
        { startKtime := e.2.Header.Ktime_ns, endKtime := 0, size := e.2.Size, isLeaked := false })
    some { key := streamKey.zero, spans := spans, allocations := allocations }

/-- Conversion `uint64(nowTs)` of an `int64`. -/
def uint64OfInt64 (nowTs : Int) : Nat := (nowTs % 2 ^ 64).toNat

/-- Method `markEnd`; `nowTs` is what `ddebpf.NowNanoseconds()` returned (an `int64` or an
error).  The result is the returned error, if any, and the handler afterwards. -/
def markEnd (sh : streamHandler) (nowTs : Except String Int) : Option String × streamHandler :=
  match nowTs with
  | .error err => (some err, sh)
  | .ok nowTs =>
    let sh1 : streamHandler := { sh with processEnded := true }
    let sh2 := sh1.markSynchronization (uint64OfInt64 nowTs)
    let leaked : List memoryAllocation :=
      sh2.memAllocEvents.map (fun e =>
        { startKtime := e.2.Header.Ktime_ns, endKtime := uint64OfInt64 nowTs, size := e.2.Size,
          isLeaked := true })
    (none, { sh2 with allocations := sh2.allocations ++ leaked })

/-- Method `handleSync`; the argument is `event.Header.Ktime_ns`. -/
def handleSync (sh : streamHandler) (event : CudaEventHeader) : streamHandler :=
  sh.markSynchronization event.Ktime_ns

end streamHandler

/-! ## Operations on a handler and reachable states -/

/-- One call of a method of the stream handler. -/
inductive Op where
  | handleKernelLaunch (event : CudaKernelLaunch)
  | handleMemEvent (event : CudaMemEvent)
  | markSynchronization (ts : Nat)
  | getPastData (flush : Bool)
  | getCurrentData (now : Nat)
  | markEnd (nowTs : Except String Int)

/-- Handler after one call. -/
def Op.apply (sh : streamHandler) : Op → streamHandler
  | .handleKernelLaunch event => sh.handleKernelLaunch event
  | .handleMemEvent event => sh.handleMemEvent event
  | .markSynchronization ts => sh.markSynchronization ts
  | .getPastData flush => (sh.getPastData flush).2
  | .getCurrentData _ => sh
  | .markEnd nowTs => (sh.markEnd nowTs).2

/-- Handler after a sequence of calls, starting from `newStreamHandler`. -/
def run (ops : List Op) : streamHandler :=
  ops.foldl Op.apply newStreamHandler

/-- Pending launches folded by a span bounded above by `maxTime`. -/
def folded (sh : streamHandler) (maxTime : Nat) : List CudaKernelLaunch :=
  sh.kernelLaunches.filter (fun launch => decide (launch.Header.Ktime_ns < maxTime))

/-- Sum of the per-launch thread counts `blockSize * blockCount` of a list of launches. -/
def threadSum (launches : List CudaKernelLaunch) : Nat :=
  (launches.map (fun launch => streamHandler.blockSize launch * streamHandler.blockCount launch)).sum

/-! ## Example inputs -/

/-- Launch at time `t` with block dimensions `(b, 1, 1)` and grid dimensions `(g, 1, 1)`. -/
def launchAt (t b g : Nat) : CudaKernelLaunch :=
  { Header := { Ktime_ns := t }, Block_size := { X := b, Y := 1, Z := 1 },
    Grid_size := { X := g, Y := 1, Z := 1 } }

/-- Handler whose only content is the given pending launches. -/
def withLaunches (launches : List CudaKernelLaunch) : streamHandler :=
  { newStreamHandler with kernelLaunches := launches }

/-- Allocate event of the given address, size and timestamp. -/
def allocEvent (addr size t : Nat) : CudaMemEvent :=
  { Header := { Ktime_ns := t }, Size := size, Addr := addr, Type_ := CudaMemAlloc }

/-- Free event of the given address, size and timestamp. -/
def freeEvent (addr size t : Nat) : CudaMemEvent :=
  { Header := { Ktime_ns := t }, Size := size, Addr := addr, Type_ := CudaMemAlloc + 1 }

/-- Handler reached from a new one by handling the given memory events in order. -/
def withAllocs (events : List CudaMemEvent) : streamHandler :=
  events.foldl streamHandler.handleMemEvent newStreamHandler

/-! ## Aggregator (`pkg/gpu/aggregator.go`)

Go `float64` values are embedded as rational numbers: arithmetic is exact, rounding is not
modelled.  A division whose divisor can be zero is `float64Div`: its result is `none` when
Go returns an infinity or NaN instead of a number.  Go `int64` values are integers; the
conversions and the subtraction that can leave the `int64` range carry their
two's-complement reduction `wrapInt64`. -/

/-- Constant `nsecPerSec`. -/
def nsecPerSec : ℚ := 1000000000

/-- Division of two `float64` values, in exact arithmetic: the quotient, or `none` when the
divisor is zero, where Go returns an infinity or NaN instead of a number. -/
def float64Div (x y : ℚ) : Option ℚ :=
  if y = 0 then none else some (x / y)

/-- Two's-complement reduction of an integer to the `int64` range. -/
def wrapInt64 (x : Int) : Int := (x + 2 ^ 63) % 2 ^ 64 - 2 ^ 63

/-- Conversion `int64(n)` of a `uint64`. -/
def int64OfUint64 (n : Nat) : Int := wrapInt64 (n : Int)

/-- Modelled from the spec: the type `systemContext` is not part of the sources; the
aggregator reads from it only `maxGpuThreadsPerDevice[0]`, the maximum number of threads
that the device can run concurrently (a machine integer that holds a thread count). -/
structure systemContext where
  maxGpuThreadsPerDevice0 : Nat
deriving DecidableEq

/-- Receiver of the stream-level data of one process. -/
structure aggregator where
  totalThreadSecondsUsed : ℚ
  lastCheckKtime : Int
  measuredIntervalNs : Int
  currentAllocs : List memoryAllocation
  pastAllocs : List memoryAllocation
  utilizationNormFactor : ℚ
  processEnded : Bool
  sysCtx : systemContext
deriving DecidableEq

/-- Constructor `newAggregator`: every field but `sysCtx` has its zero value. -/
def newAggregator (sysCtx : systemContext) : aggregator :=
  { totalThreadSecondsUsed := 0, lastCheckKtime := 0, measuredIntervalNs := 0,
    currentAllocs := [], pastAllocs := [], utilizationNormFactor := 0, processEnded := false,
    sysCtx := sysCtx }

namespace aggregator

/-- Method `processKernelSpan`. -/
def processKernelSpan (agg : aggregator) (span : kernelSpan) : aggregator :=
  let tsStart : Int := int64OfUint64 span.startKtime
  let tsEnd : Int := int64OfUint64 span.endKtime
  let tsStart : Int := if agg.lastCheckKtime > tsStart then agg.lastCheckKtime else tsStart
  let durationSec : ℚ := ((wrapInt64 (tsEnd - tsStart) : Int) : ℚ) / nsecPerSec
  let maxThreads : Nat := agg.sysCtx.maxGpuThreadsPerDevice0 % 2 ^ 64
  { agg with
    totalThreadSecondsUsed :=
      agg.totalThreadSecondsUsed + durationSec * ((min span.avgThreadCount maxThreads : Nat) : ℚ) }

/-- Method `processPastData`. -/
def processPastData (agg : aggregator) (data : streamData) : aggregator :=
  let agg1 := data.spans.foldl processKernelSpan agg
  { agg1 with pastAllocs := agg1.pastAllocs ++ data.allocations }

/-- Method `processCurrentData`. -/
def processCurrentData (agg : aggregator) (data : streamData) : aggregator :=
  let agg1 := data.spans.foldl processKernelSpan agg
  { agg1 with currentAllocs := agg1.currentAllocs ++ data.allocations }

/-- Method `getGPUUtilization`: the aggregator is only read.  The result is `none` when the
division returns an infinity or NaN. -/
def getGPUUtilization (agg : aggregator) : Option ℚ :=
  let intervalSecs : ℚ := (agg.measuredIntervalNs : ℚ) / nsecPerSec
  if intervalSecs > 0 then
    let availableThreadSeconds : ℚ := (agg.sysCtx.maxGpuThreadsPerDevice0 : ℚ) * intervalSecs
    float64Div agg.totalThreadSecondsUsed availableThreadSeconds
  else some 0

/-- Method `setGPUUtilizationNormalizationFactor`. -/
def setGPUUtilizationNormalizationFactor (agg : aggregator) (factor : ℚ) : aggregator :=
  { agg with utilizationNormFactor := factor }

/-- Method `flushProcessedStats`. -/
def flushProcessedStats (agg : aggregator) : aggregator :=
  { agg with currentAllocs := [], pastAllocs := [], totalThreadSecondsUsed := 0 }

end aggregator

/-! ## Interval accumulator (`tseriesBuilder`) and `getStats` -/

/-- Modelled from the spec: the type `tseriesBuilder` and its methods are not part of the
sources.  An event recorded by the interval accumulator: a quantity `q` that becomes active
at a time and stays active (`opened`), or that is active from `tStart` to `tEnd` only
(`closed`). -/
inductive tsEvent where
  | opened (t : Nat) (q : Int)
  | closed (tStart tEnd : Nat) (q : Int)
deriving DecidableEq

/-- Modelled from the spec: a timestamped delta of the interval accumulator (not part of the
sources); `isClose` tells the delta `-q` at the end of a closed event from the delta `+q`
at the start of an event. -/
structure tsDelta where
  time : Nat
  isClose : Bool
  value : Int
deriving DecidableEq

/-- Modelled from the spec: the interval accumulator `tseriesBuilder` (not part of the
sources), as the events recorded so far, in the order of their recording. -/
structure tseriesBuilder where
  events : List tsEvent
deriving DecidableEq

namespace tseriesBuilder

/-- Modelled from the spec: the zero value `var memTsBuilder tseriesBuilder`, an accumulator
without events (the type is not part of the sources). -/
def empty : tseriesBuilder := { events := [] }

/-- Modelled from the spec: method `AddEventStart` (`addOpenEvent(t, q)`), not part of the
sources: quantity `q` becomes active at time `t` and never becomes inactive. -/
def AddEventStart (b : tseriesBuilder) (startKtime : Nat) (value : Int) : tseriesBuilder :=
  { events := b.events ++ [tsEvent.opened startKtime value] }

/-- Modelled from the spec: method `AddEvent` (`addClosedEvent(tStart, tEnd, q)`), not part
of the sources: quantity `q` is active from `tStart` to `tEnd` only. -/
def AddEvent (b : tseriesBuilder) (startKtime endKtime : Nat) (value : Int) : tseriesBuilder :=
  { events := b.events ++ [tsEvent.closed startKtime endKtime value] }

/-- Modelled from the spec: the deltas of one event of the absent `tseriesBuilder`:
`(tStart, +q)` for every event and `(tEnd, -q)` for every closed event. -/
def deltasOf : tsEvent → List tsDelta
  | tsEvent.opened t q => [{ time := t, isClose := false, value := q }]
  | tsEvent.closed tStart tEnd q =>
    [{ time := tStart, isClose := false, value := q },
     { time := tEnd, isClose := true, value := -q }]

/-- Modelled from the spec: the deltas of all the recorded events of the absent
`tseriesBuilder`. -/
def deltasOfEvents : List tsEvent → List tsDelta
  | [] => []
  | e :: es => deltasOf e ++ deltasOfEvents es

/-- Modelled from the spec: the order of the sweep of the absent `tseriesBuilder`: by
timestamp, opens before closes at equal timestamps. -/
def deltaBefore (a b : tsDelta) : Bool :=
  decide (a.time < b.time) || (decide (a.time = b.time) && (!a.isClose || b.isClose))

/-- Modelled from the spec: insertion of one delta into a sorted list of deltas (sorting
step of the absent `tseriesBuilder`). -/
def insertDelta (d : tsDelta) : List tsDelta → List tsDelta
  | [] => [d]
  | x :: xs => if deltaBefore d x then d :: x :: xs else x :: insertDelta d xs

/-- Modelled from the spec: the deltas sorted by timestamp, opens before closes at equal
timestamps (sorting of the absent `tseriesBuilder`; deltas that the order does not tell
apart keep the order of their recording). -/
def sortDeltas : List tsDelta → List tsDelta
  | [] => []
  | d :: ds => insertDelta d (sortDeltas ds)

/-- Modelled from the spec: one step of the running prefix sum of the absent
`tseriesBuilder`: the sum so far and the maximum of the sums so far. -/
def sweepStep (acc : Int × Int) (d : tsDelta) : Int × Int :=
  (acc.1 + d.value, max acc.2 (acc.1 + d.value))

/-- Modelled from the spec: method `GetLastAndMax` (`lastAndMax()`), not part of the
sources: the final sum and the maximum prefix sum of the sorted deltas; both are zero when
there is no event. -/
def GetLastAndMax (b : tseriesBuilder) : Int × Int :=
  (sortDeltas (deltasOfEvents b.events)).foldl sweepStep (0, 0)

/-- One recording call on the accumulator: `AddEventStart` for an open event, `AddEvent`
for a closed one. -/
def record (b : tseriesBuilder) : tsEvent → tseriesBuilder
  | tsEvent.opened t q => b.AddEventStart t q
  | tsEvent.closed tStart tEnd q => b.AddEvent tStart tEnd q

/-- Quantity of a recorded event. -/
def quantity : tsEvent → Int
  | tsEvent.opened _ q => q
  | tsEvent.closed _ _ q => q

/-- Quantity that a recorded event leaves active at the end: its quantity for an open
event, nothing for a closed one. -/
def openQuantity : tsEvent → Int
  | tsEvent.opened _ q => q
  | tsEvent.closed _ _ _ => 0

end tseriesBuilder

/-- Type `model.PIDStats`: the GPU stats of one process; `UtilizationPercentage` is `none`
when the `float64` is an infinity or NaN. -/
structure PIDStats where
  UtilizationPercentage : Option ℚ
  CurrentMemoryBytes : Nat
  MaxMemoryBytes : Nat
deriving DecidableEq

namespace aggregator

/-- The accumulator that `getStats` fills: one open event per current allocation, then one
closed event per past allocation, each with the quantity `int64(alloc.size)`. -/
def memTsBuilder (agg : aggregator) : tseriesBuilder :=
  agg.pastAllocs.foldl
    (fun b alloc => b.AddEvent alloc.startKtime alloc.endKtime (int64OfUint64 alloc.size))
    (agg.currentAllocs.foldl
      (fun b alloc => b.AddEventStart alloc.startKtime (int64OfUint64 alloc.size))
      tseriesBuilder.empty)

/-- Method `getStats`: the returned stats and the aggregator afterwards.  An infinity or
NaN returned by `getGPUUtilization` stays one when divided by the normalization factor. -/
def getStats (agg : aggregator) : PIDStats × aggregator :=
  let utilizationPercentage : Option ℚ :=
    if agg.measuredIntervalNs > 0 then
      agg.getGPUUtilization.bind
        (fun utilization => float64Div utilization agg.utilizationNormFactor)
    else some 0
  let lastAndMax : Int × Int := agg.memTsBuilder.GetLastAndMax
  ({ UtilizationPercentage := utilizationPercentage
     CurrentMemoryBytes := streamHandler.uint64OfInt64 lastAndMax.1
     MaxMemoryBytes := streamHandler.uint64OfInt64 lastAndMax.2 },
   agg.flushProcessedStats)

end aggregator

/-- Modelled from the spec: the interval driver is not part of the sources.  One reporting
interval: `getPastData(true)`, then `getCurrentData(now)`, both snapshots (when there is
one) fed to `processPastData` and `processCurrentData`, then `getStats`. -/
def runInterval (sh : streamHandler) (agg : aggregator) (now : Nat) :
    PIDStats × streamHandler × aggregator :=
  let past := sh.getPastData true
  let current := past.2.getCurrentData now
  let agg1 := match past.1 with
    | none => agg
    | some data => agg.processPastData data
  let agg2 := match current with
    | none => agg1
    | some data => agg1.processCurrentData data
  ((agg2.getStats).1, past.2, (agg2.getStats).2)

/-- Modelled from the spec: consecutive reporting intervals at the given times (the interval
driver is not part of the sources); the reports are listed in order. -/
def runIntervals (sh : streamHandler) (agg : aggregator) :
    List Nat → List PIDStats × streamHandler × aggregator
  | [] => ([], sh, agg)
  | now :: rest =>
    let step := runInterval sh agg now
    let tail := runIntervals step.2.1 step.2.2 rest
    (step.1 :: tail.1, tail.2.1, tail.2.2)

/-- Sum of the sizes of a list of allocations. -/
def sizeSum (allocs : List memoryAllocation) : Nat :=
  (allocs.map (fun alloc => alloc.size)).sum

/-- Record that `getCurrentData` reports for a pending allocate event. -/
def openAllocation (e : Nat × CudaMemEvent) : memoryAllocation :=
  { startKtime := e.2.Header.Ktime_ns, endKtime := 0, size := e.2.Size, isLeaked := false }

/-- Record that `markEnd` at time `now` appends for a pending allocate event. -/
def leakedAllocation (now : Nat) (e : Nat × CudaMemEvent) : memoryAllocation :=
  { startKtime := e.2.Header.Ktime_ns, endKtime := now, size := e.2.Size, isLeaked := true }

/-- Aggregator of a device of the given capacity in the given interval, nothing absorbed. -/
def aggregatorAt (capacity : Nat) (lastCheckKtime measuredIntervalNs : Int) : aggregator :=
  { newAggregator { maxGpuThreadsPerDevice0 := capacity } with
    lastCheckKtime := lastCheckKtime, measuredIntervalNs := measuredIntervalNs }

/-- Calls of `handleKernelLaunch`. -/
def Op.isLaunch : Op → Bool
  | .handleKernelLaunch _ => true
  | _ => false

/-- Calls of `handleKernelLaunch` or `markSynchronization`. -/
def Op.isLaunchOrSync : Op → Bool
  | .handleKernelLaunch _ => true
  | .markSynchronization _ => true
  | _ => false

/-- Event of a `handleKernelLaunch` call. -/
def Op.launchEvent : Op → Option CudaKernelLaunch
  | .handleKernelLaunch event => some event
  | _ => none

/-- Launches handled by a sequence of calls, in the order of the calls. -/
def launchesOf (ops : List Op) : List CudaKernelLaunch :=
  ops.filterMap Op.launchEvent

/-- Groups of launches that a sequence of calls, applied to the handler `sh`, folds into
spans: for every `markSynchronization(ts)` that finds a pending launch earlier than `ts`,
the time `ts` and the pending launches earlier than `ts` at that moment, in the order of
the calls. -/
def foldedGroups : List Op → streamHandler → List (Nat × List CudaKernelLaunch)
  | [], _ => []
  | op :: ops, sh =>
    (match op with
      | .markSynchronization ts => if folded sh ts = [] then [] else [(ts, folded sh ts)]
      | _ => []) ++ foldedGroups ops (Op.apply sh op)

/-- Sum of `numKernels` over a list of spans. -/
def kernelSum (spans : List kernelSpan) : Nat :=
  (spans.map (fun span => span.numKernels)).sum

/-! ## The loop of `getCurrentKernelSpan` -/

open streamHandler

theorem blockSize_lt (launch : CudaKernelLaunch) : blockSize launch < 2 ^ 32 :=
  Nat.mod_lt _ (by norm_num)

theorem blockCount_lt (launch : CudaKernelLaunch) : blockCount launch < 2 ^ 32 :=
  Nat.mod_lt _ (by norm_num)

theorem launchThreads_eq (launch : CudaKernelLaunch) :
    launchThreads launch = blockSize launch * blockCount launch := by
  unfold launchThreads
  apply Nat.mod_eq_of_lt
  have h1 := blockSize_lt launch
  have h2 := blockCount_lt launch
  calc blockSize launch * blockCount launch
      ≤ (2 ^ 32 - 1) * (2 ^ 32 - 1) := Nat.mul_le_mul (by omega) (by omega)
    _ < 2 ^ 64 := by norm_num

theorem spanStep_skip {maxTime : Nat} {span : kernelSpan} {launch : CudaKernelLaunch}
    (h : ¬ launch.Header.Ktime_ns < maxTime) : spanStep maxTime span launch = span := by
  unfold spanStep
  rw [if_pos (by omega)]

theorem spanStep_take {maxTime : Nat} {span : kernelSpan} {launch : CudaKernelLaunch}
    (h : launch.Header.Ktime_ns < maxTime) :
    spanStep maxTime span launch =
      { startKtime := min launch.Header.Ktime_ns span.startKtime
        endKtime := max launch.Header.Ktime_ns span.endKtime
        avgThreadCount := (span.avgThreadCount + launchThreads launch) % 2 ^ 64
        numKernels := span.numKernels + 1 } := by
  unfold spanStep
  rw [if_neg (by omega)]

/-- The loop counts the launches earlier than `maxTime`. -/
theorem foldl_numKernels (maxTime : Nat) (launches : List CudaKernelLaunch) (span : kernelSpan) :
    (launches.foldl (spanStep maxTime) span).numKernels =
      span.numKernels +
        (launches.filter (fun launch => decide (launch.Header.Ktime_ns < maxTime))).length := by
  induction launches generalizing span with
  | nil => simp
  | cons l ls ih =>
    rw [List.foldl_cons, ih]
    by_cases h : l.Header.Ktime_ns < maxTime
    · rw [spanStep_take h, List.filter_cons_of_pos (by simpa using h)]
      simp only [List.length_cons]
      omega
    · rw [spanStep_skip h, List.filter_cons_of_neg (by simpa using h)]

/-- The loop never moves `endKtime` once it is at least `maxTime`. -/
theorem foldl_endKtime (maxTime : Nat) (launches : List CudaKernelLaunch) (span : kernelSpan)
    (hend : maxTime ≤ span.endKtime) :
    (launches.foldl (spanStep maxTime) span).endKtime = span.endKtime := by
  induction launches generalizing span with
  | nil => simp
  | cons l ls ih =>
    rw [List.foldl_cons]
    by_cases h : l.Header.Ktime_ns < maxTime
    · rw [spanStep_take h, ih]
      · exact Nat.max_eq_right (by omega)
      · simp only
        exact le_trans hend (Nat.le_max_right _ _)
    · rw [spanStep_skip h, ih span hend]

/-- The loop accumulates the thread counts of the launches earlier than `maxTime`
modulo `2 ^ 64`. -/
theorem foldl_avgThreadCount (maxTime : Nat) (launches : List CudaKernelLaunch)
    (span : kernelSpan) (havg : span.avgThreadCount < 2 ^ 64) :
    (launches.foldl (spanStep maxTime) span).avgThreadCount =
      (span.avgThreadCount +
        threadSum (launches.filter (fun launch => decide (launch.Header.Ktime_ns < maxTime))))
        % 2 ^ 64 := by
  induction launches generalizing span with
  | nil =>
    simp only [List.foldl_nil, List.filter_nil, threadSum, List.map_nil, List.sum_nil, Nat.add_zero]
    exact (Nat.mod_eq_of_lt havg).symm
  | cons l ls ih =>
    rw [List.foldl_cons]
    by_cases h : l.Header.Ktime_ns < maxTime
    · rw [spanStep_take h, ih _ (Nat.mod_lt _ (by norm_num)),
        List.filter_cons_of_pos (by simpa using h)]
      simp only [threadSum, List.map_cons, List.sum_cons, launchThreads_eq]
      rw [Nat.add_mod, Nat.mod_mod, ← Nat.add_mod, Nat.add_assoc]
    · rw [spanStep_skip h, ih span havg, List.filter_cons_of_neg (by simpa using h)]

/-- The loop never raises `startKtime`. -/
theorem foldl_startKtime_le (maxTime : Nat) (launches : List CudaKernelLaunch)
    (span : kernelSpan) :
    (launches.foldl (spanStep maxTime) span).startKtime ≤ span.startKtime := by
  induction launches generalizing span with
  | nil => simp
  | cons l ls ih =>
    rw [List.foldl_cons]
    by_cases h : l.Header.Ktime_ns < maxTime
    · refine le_trans (ih _) ?_
      rw [spanStep_take h]
      exact Nat.min_le_right _ _
    · rw [spanStep_skip h]
      exact ih span

/-- After the loop `startKtime` is a lower bound of the folded timestamps. -/
theorem foldl_startKtime_lower (maxTime : Nat) (launches : List CudaKernelLaunch)
    (span : kernelSpan) (l : CudaKernelLaunch) (hl : l ∈ launches)
    (hlt : l.Header.Ktime_ns < maxTime) :
    (launches.foldl (spanStep maxTime) span).startKtime ≤ l.Header.Ktime_ns := by
  induction launches generalizing span with
  | nil => simp at hl
  | cons x xs ih =>
    rw [List.foldl_cons]
    rcases List.mem_cons.mp hl with rfl | hmem
    · refine le_trans (foldl_startKtime_le _ _ _) ?_
      rw [spanStep_take hlt]
      exact Nat.min_le_left _ _
    · exact ih _ hmem

/-- After the loop `startKtime` is the initial value or one of the folded timestamps. -/
theorem foldl_startKtime_mem (maxTime : Nat) (launches : List CudaKernelLaunch)
    (span : kernelSpan) :
    (launches.foldl (spanStep maxTime) span).startKtime = span.startKtime ∨
      ∃ l, l ∈ launches ∧ l.Header.Ktime_ns < maxTime ∧
        (launches.foldl (spanStep maxTime) span).startKtime = l.Header.Ktime_ns := by
  induction launches generalizing span with
  | nil => simp
  | cons x xs ih =>
    rw [List.foldl_cons]
    by_cases h : x.Header.Ktime_ns < maxTime
    · rcases ih (spanStep maxTime span x) with h1 | ⟨l, hl, hlt, heq⟩
      · rw [h1, spanStep_take h]
        simp only
        rcases Nat.le_total x.Header.Ktime_ns span.startKtime with hle | hle
        · right
          exact ⟨x, List.mem_cons_self _ _, h, Nat.min_eq_left hle⟩
        · left
          exact Nat.min_eq_right hle
      · right
        exact ⟨l, List.mem_cons_of_mem _ hl, hlt, heq⟩
    · rw [spanStep_skip h]
      rcases ih span with h1 | ⟨l, hl, hlt, heq⟩
      · left; exact h1
      · right
        exact ⟨l, List.mem_cons_of_mem _ hl, hlt, heq⟩

/-! ## Characterisation of `getCurrentKernelSpan` and `markSynchronization` -/

theorem foldl_spanInit_numKernels (sh : streamHandler) (maxTime : Nat) :
    (sh.kernelLaunches.foldl (spanStep maxTime) (spanInit maxTime)).numKernels =
      (folded sh maxTime).length := by
  rw [foldl_numKernels]
  simp [spanInit, folded]

/-- No span is returned exactly when no pending launch is earlier than `maxTime`. -/
theorem getCurrentKernelSpan_eq_none_iff (sh : streamHandler) (maxTime : Nat) :
    sh.getCurrentKernelSpan maxTime = none ↔ folded sh maxTime = [] := by
  unfold getCurrentKernelSpan
  simp only [foldl_spanInit_numKernels]
  constructor
  · intro h
    by_contra hne
    rw [if_neg (by simpa using hne)] at h
    exact Option.noConfusion h
  · intro h
    rw [if_pos (by simp [h])]

/-- Fields of the span that is returned. -/
theorem getCurrentKernelSpan_fields {sh : streamHandler} {maxTime : Nat} {span : kernelSpan}
    (h : sh.getCurrentKernelSpan maxTime = some span) :
    span.startKtime = (sh.kernelLaunches.foldl (spanStep maxTime) (spanInit maxTime)).startKtime ∧
    span.endKtime = maxTime ∧
    span.avgThreadCount = threadSum (folded sh maxTime) % 2 ^ 64 / (folded sh maxTime).length ∧
    span.numKernels = (folded sh maxTime).length ∧
    folded sh maxTime ≠ [] := by
  have hne : folded sh maxTime ≠ [] := by
    intro hnil
    rw [(getCurrentKernelSpan_eq_none_iff sh maxTime).mpr hnil] at h
    exact Option.noConfusion h
  unfold getCurrentKernelSpan at h
  simp only [foldl_spanInit_numKernels] at h
  rw [if_neg (by simpa using hne)] at h
  have hs := Option.some.inj h
  subst hs
  refine ⟨rfl, ?_, ?_, ?_, hne⟩
  · simp only
    rw [foldl_endKtime _ _ _ (by simp [spanInit])]
    rfl
  · simp only
    rw [foldl_avgThreadCount _ _ _ (by simp [spanInit])]
    simp [spanInit, folded]
  · simp only

/-- A span is returned as soon as one pending launch is earlier than `maxTime`. -/
theorem getCurrentKernelSpan_isSome {sh : streamHandler} {maxTime : Nat}
    (hne : folded sh maxTime ≠ []) : ∃ span, sh.getCurrentKernelSpan maxTime = some span := by
  cases h : sh.getCurrentKernelSpan maxTime with
  | none => exact absurd ((getCurrentKernelSpan_eq_none_iff sh maxTime).mp h) hne
  | some span => exact ⟨span, rfl⟩

theorem folded_eq_nil_iff (sh : streamHandler) (maxTime : Nat) :
    folded sh maxTime = [] ↔ ∀ l ∈ sh.kernelLaunches, ¬ l.Header.Ktime_ns < maxTime := by
  simp [folded, List.filter_eq_nil_iff]

theorem mem_folded {sh : streamHandler} {maxTime : Nat} {l : CudaKernelLaunch} :
    l ∈ folded sh maxTime ↔ l ∈ sh.kernelLaunches ∧ l.Header.Ktime_ns < maxTime := by
  simp [folded, List.mem_filter]

/-- Every returned span counts at least one kernel. -/
theorem getCurrentKernelSpan_numKernels_pos {sh : streamHandler} {maxTime : Nat}
    {span : kernelSpan} (h : sh.getCurrentKernelSpan maxTime = some span) :
    1 ≤ span.numKernels := by
  obtain ⟨-, -, -, hn, hne⟩ := getCurrentKernelSpan_fields h
  rw [hn]
  exact List.length_pos.mpr hne

/-- Every returned span starts strictly before it ends. -/
theorem getCurrentKernelSpan_start_lt_end {sh : streamHandler} {maxTime : Nat}
    {span : kernelSpan} (h : sh.getCurrentKernelSpan maxTime = some span) :
    span.startKtime < span.endKtime := by
  obtain ⟨hs, he, -, -, hne⟩ := getCurrentKernelSpan_fields h
  obtain ⟨l, hl⟩ := List.exists_mem_of_ne_nil _ hne
  have hl2 := mem_folded.mp hl
  rw [hs, he]
  exact lt_of_le_of_lt (foldl_startKtime_lower _ _ _ l hl2.1 hl2.2) hl2.2

theorem markSynchronization_of_none {sh : streamHandler} {ts : Nat}
    (h : sh.getCurrentKernelSpan ts = none) : sh.markSynchronization ts = sh := by
  unfold markSynchronization
  rw [h]

theorem markSynchronization_of_some {sh : streamHandler} {ts : Nat} {span : kernelSpan}
    (h : sh.getCurrentKernelSpan ts = some span) :
    sh.markSynchronization ts =
      { sh with
        kernelSpans := sh.kernelSpans ++ [span]
        kernelLaunches :=
          sh.kernelLaunches.filter (fun launch => decide (launch.Header.Ktime_ns ≥ ts)) } := by
  unfold markSynchronization
  rw [h]

/-! ## Spans of reachable handlers -/

/-- A property of every span that `getCurrentKernelSpan` can return holds for every closed
span of the handler after any sequence of calls. -/
theorem kernelSpans_foldl (P : kernelSpan → Prop)
    (hP : ∀ (sh : streamHandler) (t : Nat) (span : kernelSpan),
      sh.getCurrentKernelSpan t = some span → P span)
    (ops : List Op) (sh : streamHandler) (h0 : ∀ span ∈ sh.kernelSpans, P span) :
    ∀ span ∈ (ops.foldl Op.apply sh).kernelSpans, P span := by
  have hsync : ∀ (s : streamHandler) (ts : Nat), (∀ span ∈ s.kernelSpans, P span) →
      ∀ span ∈ (s.markSynchronization ts).kernelSpans, P span := by
    intro s ts hs span hmem
    cases hg : s.getCurrentKernelSpan ts with
    | none =>
      rw [markSynchronization_of_none hg] at hmem
      exact hs span hmem
    | some sp =>
      rw [markSynchronization_of_some hg] at hmem
      simp only [List.mem_append, List.mem_singleton] at hmem
      rcases hmem with hmem | rfl
      · exact hs span hmem
      · exact hP s ts span hg
  induction ops generalizing sh with
  | nil => simpa using h0
  | cons op ops ih =>
    rw [List.foldl_cons]
    apply ih
    cases op with
    | handleKernelLaunch event => exact h0
    | handleMemEvent event =>
      simp only [Op.apply]
      unfold handleMemEvent
      split
      · exact h0
      · split
        · exact h0
        · exact h0
    | markSynchronization ts => exact hsync sh ts h0
    | getPastData flush =>
      simp only [Op.apply]
      unfold getPastData
      split
      · exact h0
      · cases flush
        · exact h0
        · intro span hmem
          simp at hmem
    | getCurrentData now => exact h0
    | markEnd nowTs =>
      simp only [Op.apply]
      unfold markEnd
      cases nowTs with
      | error err => exact h0
      | ok now =>
        simp only
        exact hsync _ _ h0

/-! ## Kernel spans: claims C1 to C7 -/

/-- C1: on a fresh handler, a launch at time `t` followed by a synchronization at
`t + delta` (`delta > 0`, both timestamps `uint64` values) leaves exactly one closed span,
with `startKtime = t`, `endKtime = t + delta` and `numKernels = 1`; any further
synchronization, at any `ts2`, leaves the closed spans as they are. -/
theorem C1_launch_then_synchronize (launch : CudaKernelLaunch) (delta : Nat)
    (hdelta : 0 < delta) (hts : launch.Header.Ktime_ns + delta < 2 ^ 64) :
    ∃ span : kernelSpan,
      ((newStreamHandler.handleKernelLaunch launch).markSynchronization
          (launch.Header.Ktime_ns + delta)).kernelSpans = [span] ∧
      span.startKtime = launch.Header.Ktime_ns ∧
      span.endKtime = launch.Header.Ktime_ns + delta ∧
      span.numKernels = 1 ∧
      ∀ ts2 : Nat,
        (((newStreamHandler.handleKernelLaunch launch).markSynchronization
            (launch.Header.Ktime_ns + delta)).markSynchronization ts2).kernelSpans = [span] := by
  have hlt : launch.Header.Ktime_ns < launch.Header.Ktime_ns + delta := by omega
  have hfold : folded (newStreamHandler.handleKernelLaunch launch)
      (launch.Header.Ktime_ns + delta) = [launch] := by
    simp [folded, handleKernelLaunch, newStreamHandler, hdelta]
  obtain ⟨span, hspan⟩ := @getCurrentKernelSpan_isSome
    (newStreamHandler.handleKernelLaunch launch)
    (launch.Header.Ktime_ns + delta) (by rw [hfold]; simp)
  obtain ⟨hs, he, -, hn, -⟩ := getCurrentKernelSpan_fields hspan
  have hstart : span.startKtime = launch.Header.Ktime_ns := by
    rw [hs]
    simp only [handleKernelLaunch, newStreamHandler, List.nil_append, List.foldl_cons,
      List.foldl_nil]
    rw [spanStep_take hlt]
    simp only [spanInit, MaxUint64]
    exact Nat.min_eq_left (by omega)
  refine ⟨span, ?_, hstart, he, ?_, ?_⟩
  · rw [markSynchronization_of_some hspan]
    simp [handleKernelLaunch, newStreamHandler]
  · rw [hn, hfold]
    rfl
  · intro ts2
    rw [markSynchronization_of_some hspan]
    rw [markSynchronization_of_none]
    · simp [handleKernelLaunch, newStreamHandler]
    · rw [getCurrentKernelSpan_eq_none_iff]
      simp [folded, handleKernelLaunch, newStreamHandler, hdelta]

/-- Witness of C1: launch at time 10, synchronization at time 15. -/
theorem C1_launch_then_synchronize_witness :
    0 < 5 ∧ (launchAt 10 32 4).Header.Ktime_ns + 5 < 2 ^ 64 ∧
    ∃ span : kernelSpan,
      ((newStreamHandler.handleKernelLaunch (launchAt 10 32 4)).markSynchronization
          ((launchAt 10 32 4).Header.Ktime_ns + 5)).kernelSpans = [span] ∧
      span.startKtime = (launchAt 10 32 4).Header.Ktime_ns ∧
      span.endKtime = (launchAt 10 32 4).Header.Ktime_ns + 5 ∧
      span.numKernels = 1 ∧
      ∀ ts2 : Nat,
        (((newStreamHandler.handleKernelLaunch (launchAt 10 32 4)).markSynchronization
            ((launchAt 10 32 4).Header.Ktime_ns + 5)).markSynchronization ts2).kernelSpans
          = [span] :=
  ⟨by decide, by decide, C1_launch_then_synchronize (launchAt 10 32 4) 5 (by decide) (by decide)⟩

/-- C2: a span returned by `getCurrentKernelSpan(maxTime)` has `endKtime = maxTime` (the
`max` update in the loop never changes it), and `markSynchronization(maxTime)` either
leaves the closed spans as they are or appends one span whose `endKtime` is `maxTime`. -/
theorem C2_endKtime_is_maxTime (sh : streamHandler) (maxTime : Nat) :
    (∀ span : kernelSpan, sh.getCurrentKernelSpan maxTime = some span →
      span.endKtime = maxTime) ∧
    ((sh.markSynchronization maxTime).kernelSpans = sh.kernelSpans ∨
      ∃ span : kernelSpan,
        (sh.markSynchronization maxTime).kernelSpans = sh.kernelSpans ++ [span] ∧
        span.endKtime = maxTime) := by
  constructor
  · intro span h
    exact (getCurrentKernelSpan_fields h).2.1
  · cases h : sh.getCurrentKernelSpan maxTime with
    | none =>
      left
      rw [markSynchronization_of_none h]
    | some span =>
      right
      refine ⟨span, ?_, (getCurrentKernelSpan_fields h).2.1⟩
      rw [markSynchronization_of_some h]

/-- Witness of C2: launches at times 3 and 7, span bounded by 20. -/
theorem C2_endKtime_is_maxTime_witness :
    (withLaunches [launchAt 3 8 2, launchAt 7 4 4]).getCurrentKernelSpan 20 =
      some { startKtime := 3, endKtime := 20, avgThreadCount := 16, numKernels := 2 } ∧
    ({ startKtime := 3, endKtime := 20, avgThreadCount := 16, numKernels := 2 } :
      kernelSpan).endKtime = 20 :=
  ⟨by decide,
    (C2_endKtime_is_maxTime (withLaunches [launchAt 3 8 2, launchAt 7 4 4]) 20).1 _ (by decide)⟩

/-- C3: after any sequence of `handleKernelLaunch`, `handleMemEvent`,
`markSynchronization`, `getPastData`, `getCurrentData` and `markEnd` calls on a new handler,
every closed span has `numKernels ≥ 1`, and so has every span of a snapshot returned by
`getCurrentData` or `getPastData`. -/
theorem C3_numKernels_pos (ops : List Op) :
    (∀ span ∈ (run ops).kernelSpans, 1 ≤ span.numKernels) ∧
    (∀ (now : Nat) (data : streamData), (run ops).getCurrentData now = some data →
      ∀ span ∈ data.spans, 1 ≤ span.numKernels) ∧
    (∀ (flush : Bool) (data : streamData), ((run ops).getPastData flush).1 = some data →
      ∀ span ∈ data.spans, 1 ≤ span.numKernels) := by
  have hinv : ∀ span ∈ (run ops).kernelSpans, 1 ≤ span.numKernels :=
    kernelSpans_foldl (fun span => 1 ≤ span.numKernels)
      (fun _ _ _ h => getCurrentKernelSpan_numKernels_pos h) ops newStreamHandler
      (by simp [newStreamHandler])
  refine ⟨hinv, ?_, ?_⟩
  · intro now data hdata span hmem
    unfold getCurrentData at hdata
    split at hdata
    · exact Option.noConfusion hdata
    · have hd := Option.some.inj hdata
      subst hd
      simp only at hmem
      cases hg : (run ops).getCurrentKernelSpan now with
      | none =>
        rw [hg] at hmem
        simp at hmem
      | some sp =>
        rw [hg] at hmem
        simp only [List.mem_singleton] at hmem
        subst hmem
        exact getCurrentKernelSpan_numKernels_pos hg
  · intro flush data hdata span hmem
    unfold getPastData at hdata
    split at hdata
    · exact Option.noConfusion hdata
    · cases flush
      · simp only [Bool.false_eq_true, if_false] at hdata
        have hd := Option.some.inj hdata
        subst hd
        exact hinv span hmem
      · simp only [if_true] at hdata
        have hd := Option.some.inj hdata
        subst hd
        exact hinv span hmem

/-- Witness of C3: two launches, a synchronization that folds the first, then a look at
the open data and a flush of the closed data. -/
theorem C3_numKernels_pos_witness :
    (run [.handleKernelLaunch (launchAt 1 8 2), .handleKernelLaunch (launchAt 9 8 2),
        .markSynchronization 5]).kernelSpans =
      [{ startKtime := 1, endKtime := 5, avgThreadCount := 16, numKernels := 1 }] ∧
    1 ≤ ({ startKtime := 1, endKtime := 5, avgThreadCount := 16, numKernels := 1 } :
      kernelSpan).numKernels :=
  ⟨by decide,
    (C3_numKernels_pos [.handleKernelLaunch (launchAt 1 8 2),
      .handleKernelLaunch (launchAt 9 8 2), .markSynchronization 5]).1 _ (by decide)⟩

/-- C4: a span returned by `getCurrentKernelSpan(maxTime)` (`maxTime` a `uint64` value)
starts at the minimum timestamp of the pending launches earlier than `maxTime`: its
`startKtime` is the timestamp of one of them and is at most the timestamp of each of them.
Hence `startKtime ≤ endKtime`, indeed `startKtime < endKtime`, for that span and for every
closed span of a handler after any sequence of calls. -/
theorem C4_startKtime_is_min (sh : streamHandler) (maxTime : Nat) (span : kernelSpan)
    (hmax : maxTime ≤ MaxUint64) (h : sh.getCurrentKernelSpan maxTime = some span) :
    (∃ l ∈ folded sh maxTime, span.startKtime = l.Header.Ktime_ns) ∧
    (∀ l ∈ folded sh maxTime, span.startKtime ≤ l.Header.Ktime_ns) ∧
    span.startKtime ≤ span.endKtime ∧
    span.startKtime < span.endKtime ∧
    (∀ (ops : List Op), ∀ sp ∈ (run ops).kernelSpans, sp.startKtime < sp.endKtime) := by
  obtain ⟨hs, -, -, -, hne⟩ := getCurrentKernelSpan_fields h
  have hlt := getCurrentKernelSpan_start_lt_end h
  refine ⟨?_, ?_, Nat.le_of_lt hlt, hlt, ?_⟩
  · rcases foldl_startKtime_mem maxTime sh.kernelLaunches (spanInit maxTime) with
      h1 | ⟨l, hl, hlt2, heq⟩
    · obtain ⟨l, hl⟩ := List.exists_mem_of_ne_nil _ hne
      have hl2 := mem_folded.mp hl
      have hlow := foldl_startKtime_lower maxTime sh.kernelLaunches (spanInit maxTime) l
        hl2.1 hl2.2
      rw [h1] at hlow
      simp only [spanInit] at hlow
      omega
    · exact ⟨l, mem_folded.mpr ⟨hl, hlt2⟩, hs.trans heq⟩
  · intro l hl
    have hl2 := mem_folded.mp hl
    rw [hs]
    exact foldl_startKtime_lower _ _ _ l hl2.1 hl2.2
  · intro ops
    exact kernelSpans_foldl (fun sp => sp.startKtime < sp.endKtime)
      (fun _ _ _ hg => getCurrentKernelSpan_start_lt_end hg) ops newStreamHandler
      (by simp [newStreamHandler])

/-- Witness of C4: launches at times 7, 3 and 30, span bounded by 20. -/
theorem C4_startKtime_is_min_witness :
    (20 ≤ MaxUint64 ∧
      (withLaunches [launchAt 7 8 2, launchAt 3 4 4, launchAt 30 1 1]).getCurrentKernelSpan 20 =
        some { startKtime := 3, endKtime := 20, avgThreadCount := 16, numKernels := 2 }) ∧
    ((∃ l ∈ folded (withLaunches [launchAt 7 8 2, launchAt 3 4 4, launchAt 30 1 1]) 20,
        (3 : Nat) = l.Header.Ktime_ns) ∧
      (∀ l ∈ folded (withLaunches [launchAt 7 8 2, launchAt 3 4 4, launchAt 30 1 1]) 20,
        (3 : Nat) ≤ l.Header.Ktime_ns) ∧
      (3 : Nat) ≤ 20 ∧ (3 : Nat) < 20 ∧
      (∀ (ops : List Op), ∀ sp ∈ (run ops).kernelSpans, sp.startKtime < sp.endKtime)) :=
  ⟨⟨by decide, by decide⟩,
    C4_startKtime_is_min (withLaunches [launchAt 7 8 2, launchAt 3 4 4, launchAt 30 1 1]) 20
      { startKtime := 3, endKtime := 20, avgThreadCount := 16, numKernels := 2 }
      (by decide) (by decide)⟩

/-- C5, as stated, fails: two pending launches at time 0, each with block size
`2 ^ 32 - 1` and block count `2 ^ 32 - 1`.  The `uint64` accumulator wraps, and the span
bounded by 1 has `avgThreadCount = 9223372028264841217`, whereas the integer quotient of
the sum of the thread counts by 2 is `18446744065119617025`. -/
theorem C5_avgThreadCount_counterexample :
    (withLaunches [launchAt 0 4294967295 4294967295,
        launchAt 0 4294967295 4294967295]).getCurrentKernelSpan 1 =
      some { startKtime := 0, endKtime := 1, avgThreadCount := 9223372028264841217,
             numKernels := 2 } ∧
    threadSum (folded (withLaunches [launchAt 0 4294967295 4294967295,
        launchAt 0 4294967295 4294967295]) 1) /
      (folded (withLaunches [launchAt 0 4294967295 4294967295,
        launchAt 0 4294967295 4294967295]) 1).length = 18446744065119617025 ∧
    (9223372028264841217 : Nat) ≠ 18446744065119617025 := by
  refine ⟨by decide, by decide, by decide⟩

/-- C5, amended: when at least one pending launch is earlier than `maxTime`,
`getCurrentKernelSpan(maxTime)` returns a span whose `numKernels` is the number `n` of
pending launches earlier than `maxTime` and whose `avgThreadCount` is the integer quotient
by `n` of the sum of `blockSize * blockCount` over those launches reduced modulo `2 ^ 64`;
when that sum is below `2 ^ 64` it is the integer quotient of the sum by `n`. -/
theorem C5_avgThreadCount (sh : streamHandler) (maxTime : Nat)
    (hne : folded sh maxTime ≠ []) :
    ∃ span : kernelSpan, sh.getCurrentKernelSpan maxTime = some span ∧
      span.numKernels = (folded sh maxTime).length ∧
      span.avgThreadCount =
        threadSum (folded sh maxTime) % 2 ^ 64 / (folded sh maxTime).length ∧
      (threadSum (folded sh maxTime) < 2 ^ 64 →
        span.avgThreadCount = threadSum (folded sh maxTime) / (folded sh maxTime).length) := by
  obtain ⟨span, hspan⟩ := getCurrentKernelSpan_isSome hne
  obtain ⟨-, -, ha, hn, -⟩ := getCurrentKernelSpan_fields hspan
  refine ⟨span, hspan, hn, ha, ?_⟩
  intro hlt
  rw [ha, Nat.mod_eq_of_lt hlt]

/-- Witness of C5: two launches with thread counts 16 and 32 give the average 24. -/
theorem C5_avgThreadCount_witness :
    folded (withLaunches [launchAt 3 8 2, launchAt 7 8 4]) 20 ≠ [] ∧
    threadSum (folded (withLaunches [launchAt 3 8 2, launchAt 7 8 4]) 20) = 16 + 32 ∧
    (withLaunches [launchAt 3 8 2, launchAt 7 8 4]).getCurrentKernelSpan 20 =
      some { startKtime := 3, endKtime := 20, avgThreadCount := 24, numKernels := 2 } ∧
    ∃ span : kernelSpan,
      (withLaunches [launchAt 3 8 2, launchAt 7 8 4]).getCurrentKernelSpan 20 = some span ∧
      span.numKernels = (folded (withLaunches [launchAt 3 8 2, launchAt 7 8 4]) 20).length ∧
      span.avgThreadCount =
        threadSum (folded (withLaunches [launchAt 3 8 2, launchAt 7 8 4]) 20) % 2 ^ 64 /
          (folded (withLaunches [launchAt 3 8 2, launchAt 7 8 4]) 20).length ∧
      (threadSum (folded (withLaunches [launchAt 3 8 2, launchAt 7 8 4]) 20) < 2 ^ 64 →
        span.avgThreadCount =
          threadSum (folded (withLaunches [launchAt 3 8 2, launchAt 7 8 4]) 20) /
            (folded (withLaunches [launchAt 3 8 2, launchAt 7 8 4]) 20).length) :=
  ⟨by decide, by decide, by decide,
    C5_avgThreadCount (withLaunches [launchAt 3 8 2, launchAt 7 8 4]) 20 (by decide)⟩

/-- C6: when no pending launch is earlier than `ts` (so also when nothing is pending),
`markSynchronization(ts)` leaves the handler as it is: `kernelLaunches`, `kernelSpans`,
`memAllocEvents`, `allocations` and `processEnded` are all unchanged.  The method has no
error result. -/
theorem C6_markSynchronization_noop (sh : streamHandler) (ts : Nat)
    (h : ∀ l ∈ sh.kernelLaunches, ¬ l.Header.Ktime_ns < ts) :
    sh.markSynchronization ts = sh ∧
    (sh.markSynchronization ts).kernelLaunches = sh.kernelLaunches ∧
    (sh.markSynchronization ts).kernelSpans = sh.kernelSpans ∧
    (sh.markSynchronization ts).memAllocEvents = sh.memAllocEvents ∧
    (sh.markSynchronization ts).allocations = sh.allocations ∧
    (sh.markSynchronization ts).processEnded = sh.processEnded := by
  have hsame : sh.markSynchronization ts = sh :=
    markSynchronization_of_none
      ((getCurrentKernelSpan_eq_none_iff sh ts).mpr ((folded_eq_nil_iff sh ts).mpr h))
  rw [hsame]
  exact ⟨rfl, rfl, rfl, rfl, rfl, rfl⟩

/-- Witness of C6: the only pending launch is at time 9, the synchronization at time 5. -/
theorem C6_markSynchronization_noop_witness :
    (∀ l ∈ (withLaunches [launchAt 9 8 2]).kernelLaunches, ¬ l.Header.Ktime_ns < 5) ∧
    (withLaunches [launchAt 9 8 2]).markSynchronization 5 = withLaunches [launchAt 9 8 2] :=
  ⟨by decide, (C6_markSynchronization_noop (withLaunches [launchAt 9 8 2]) 5 (by decide)).1⟩

/-- C7: when some pending launch is earlier than `ts`, `markSynchronization(ts)` appends
exactly one span (the one `getCurrentKernelSpan(ts)` returns) after the closed spans, which
stay as they were and in order; `kernelLaunches` becomes the pending launches with timestamp
`≥ ts`, in their original order; `memAllocEvents`, `allocations` and `processEnded` are
unchanged. -/
theorem C7_markSynchronization_appends (sh : streamHandler) (ts : Nat)
    (h : ∃ l ∈ sh.kernelLaunches, l.Header.Ktime_ns < ts) :
    ∃ span : kernelSpan, sh.getCurrentKernelSpan ts = some span ∧
      (sh.markSynchronization ts).kernelSpans = sh.kernelSpans ++ [span] ∧
      (sh.markSynchronization ts).kernelLaunches =
        sh.kernelLaunches.filter (fun l => decide (ts ≤ l.Header.Ktime_ns)) ∧
      (sh.markSynchronization ts).memAllocEvents = sh.memAllocEvents ∧
      (sh.markSynchronization ts).allocations = sh.allocations ∧
      (sh.markSynchronization ts).processEnded = sh.processEnded := by
  obtain ⟨l, hl, hlt⟩ := h
  have hne : folded sh ts ≠ [] := List.ne_nil_of_mem (mem_folded.mpr ⟨hl, hlt⟩)
  obtain ⟨span, hspan⟩ := getCurrentKernelSpan_isSome hne
  refine ⟨span, hspan, ?_⟩
  rw [markSynchronization_of_some hspan]
  exact ⟨rfl, rfl, rfl, rfl, rfl⟩

/-- Witness of C7: launches at times 7, 30 and 3, synchronization at time 20. -/
theorem C7_markSynchronization_appends_witness :
    (∃ l ∈ (withLaunches [launchAt 7 8 2, launchAt 30 1 1, launchAt 3 4 4]).kernelLaunches,
      l.Header.Ktime_ns < 20) ∧
    ((withLaunches [launchAt 7 8 2, launchAt 30 1 1, launchAt 3 4 4]).markSynchronization
        20).kernelLaunches = [launchAt 30 1 1] ∧
    ∃ span : kernelSpan,
      (withLaunches [launchAt 7 8 2, launchAt 30 1 1, launchAt 3 4 4]).getCurrentKernelSpan 20
        = some span ∧
      ((withLaunches [launchAt 7 8 2, launchAt 30 1 1, launchAt 3 4 4]).markSynchronization
          20).kernelSpans =
        (withLaunches [launchAt 7 8 2, launchAt 30 1 1, launchAt 3 4 4]).kernelSpans ++ [span] :=
  ⟨by decide, by decide,
    (C7_markSynchronization_appends
      (withLaunches [launchAt 7 8 2, launchAt 30 1 1, launchAt 3 4 4]) 20 (by decide)).imp
      (fun _ hs => ⟨hs.1, hs.2.1⟩)⟩

/-! ## Laws of the map operations -/

theorem GoMap.get_set_self {V : Type} (m : GoMap V) (k : Nat) (v : V) :
    GoMap.get (GoMap.set m k v) k = some v := by
  induction m with
  | nil => simp [GoMap.set, GoMap.get]
  | cons e m ih =>
    obtain ⟨k', v'⟩ := e
    by_cases hk : k' = k
    · simp [GoMap.set, GoMap.get, hk]
    · simp [GoMap.set, GoMap.get, hk, ih]

theorem GoMap.set_set {V : Type} (m : GoMap V) (k : Nat) (v w : V) :
    GoMap.set (GoMap.set m k v) k w = GoMap.set m k w := by
  induction m with
  | nil => simp [GoMap.set]
  | cons e m ih =>
    obtain ⟨k', v'⟩ := e
    by_cases hk : k' = k
    · simp [GoMap.set, hk]
    · simp [GoMap.set, hk, ih]

theorem GoMap.get_delete_self {V : Type} (m : GoMap V) (k : Nat) :
    GoMap.get (GoMap.delete m k) k = none := by
  induction m with
  | nil => simp [GoMap.delete, GoMap.get]
  | cons e m ih =>
    obtain ⟨k', v'⟩ := e
    by_cases hk : k' = k
    · simpa [GoMap.delete, hk] using ih
    · simpa [GoMap.delete, GoMap.get, hk] using ih

theorem GoMap.get_delete_ne {V : Type} (m : GoMap V) (k y : Nat) (hy : y ≠ k) :
    GoMap.get (GoMap.delete m k) y = GoMap.get m y := by
  induction m with
  | nil => simp [GoMap.delete, GoMap.get]
  | cons e m ih =>
    obtain ⟨k', v'⟩ := e
    by_cases hk : k' = k
    · have hky : ¬ k' = y := fun h => hy (h.symm.trans hk)
      simpa [GoMap.delete, GoMap.get, hk, hky, hy.symm] using ih
    · by_cases hky : k' = y
      · subst hky
        rw [GoMap.delete, List.filter_cons_of_pos (by simpa using hk)]
        simp [GoMap.get]
      · simpa [GoMap.delete, GoMap.get, hk, hky] using ih

/-! ## Memory events: claims C8 to C10 -/

theorem handleMemEvent_free_some {sh : streamHandler} {f a : CudaMemEvent}
    (hf : f.Type_ ≠ CudaMemAlloc) (ha : GoMap.get sh.memAllocEvents f.Addr = some a) :
    sh.handleMemEvent f =
      { sh with
        allocations := sh.allocations ++
          [{ startKtime := a.Header.Ktime_ns, endKtime := f.Header.Ktime_ns, size := a.Size,
             isLeaked := false }]
        memAllocEvents := GoMap.delete sh.memAllocEvents f.Addr } := by
  unfold handleMemEvent
  rw [if_neg hf, ha]

theorem handleMemEvent_alloc {sh : streamHandler} {a : CudaMemEvent}
    (ha : a.Type_ = CudaMemAlloc) :
    sh.handleMemEvent a = { sh with memAllocEvents := GoMap.set sh.memAllocEvents a.Addr a } := by
  unfold handleMemEvent
  rw [if_pos ha]

/-- C8: when `memAllocEvents` holds the allocate event `a` at address `x`, handling a free
event `f` of address `x` appends to `allocations` exactly one record, with the timestamp of
`a` as start, the timestamp of `f` as end, the size of `a` and `isLeaked = false`; address
`x` is no longer pending, every other address keeps its pending entry, and `kernelLaunches`,
`kernelSpans` and `processEnded` are unchanged. -/
theorem C8_free_closes_allocation (sh : streamHandler) (a f : CudaMemEvent) (x : Nat)
    (ha : GoMap.get sh.memAllocEvents x = some a) (hf : f.Type_ ≠ CudaMemAlloc)
    (hx : f.Addr = x) :
    (sh.handleMemEvent f).allocations = sh.allocations ++
      [{ startKtime := a.Header.Ktime_ns, endKtime := f.Header.Ktime_ns, size := a.Size,
         isLeaked := false }] ∧
    GoMap.get (sh.handleMemEvent f).memAllocEvents x = none ∧
    (∀ y : Nat, y ≠ x →
      GoMap.get (sh.handleMemEvent f).memAllocEvents y = GoMap.get sh.memAllocEvents y) ∧
    (sh.handleMemEvent f).memAllocEvents =
      sh.memAllocEvents.filter (fun e => decide (e.1 ≠ x)) ∧
    (sh.handleMemEvent f).kernelLaunches = sh.kernelLaunches ∧
    (sh.handleMemEvent f).kernelSpans = sh.kernelSpans ∧
    (sh.handleMemEvent f).processEnded = sh.processEnded := by
  subst hx
  rw [handleMemEvent_free_some hf ha]
  refine ⟨rfl, ?_, ?_, rfl, rfl, rfl, rfl⟩
  · exact GoMap.get_delete_self _ _
  · intro y hy
    exact GoMap.get_delete_ne _ _ y hy

/-- Witness of C8: allocations pending at addresses 100 and 200, free of address 100. -/
theorem C8_free_closes_allocation_witness :
    (GoMap.get (withAllocs [allocEvent 100 64 1, allocEvent 200 32 2]).memAllocEvents 100 =
        some (allocEvent 100 64 1) ∧
      (freeEvent 100 0 9).Type_ ≠ CudaMemAlloc ∧ (freeEvent 100 0 9).Addr = 100) ∧
    ((withAllocs [allocEvent 100 64 1, allocEvent 200 32 2]).handleMemEvent
        (freeEvent 100 0 9)).allocations =
      [{ startKtime := 1, endKtime := 9, size := 64, isLeaked := false }] ∧
    ((withAllocs [allocEvent 100 64 1, allocEvent 200 32 2]).handleMemEvent
        (freeEvent 100 0 9)).memAllocEvents = [(200, allocEvent 200 32 2)] :=
  ⟨⟨by decide, by decide, by decide⟩,
    (C8_free_closes_allocation (withAllocs [allocEvent 100 64 1, allocEvent 200 32 2])
      (allocEvent 100 64 1) (freeEvent 100 0 9) 100 (by decide) (by decide) (by decide)).1,
    by decide⟩

/-- C9: a free event whose address has no pending entry is dropped: the handler, hence each
of `memAllocEvents`, `allocations`, `kernelLaunches`, `kernelSpans` and `processEnded`, is
unchanged.  The method has no error result. -/
theorem C9_orphan_free_dropped (sh : streamHandler) (f : CudaMemEvent)
    (hf : f.Type_ ≠ CudaMemAlloc) (hx : GoMap.get sh.memAllocEvents f.Addr = none) :
    sh.handleMemEvent f = sh ∧
    (sh.handleMemEvent f).memAllocEvents = sh.memAllocEvents ∧
    (sh.handleMemEvent f).allocations = sh.allocations ∧
    (sh.handleMemEvent f).kernelLaunches = sh.kernelLaunches ∧
    (sh.handleMemEvent f).kernelSpans = sh.kernelSpans ∧
    (sh.handleMemEvent f).processEnded = sh.processEnded := by
  have hsame : sh.handleMemEvent f = sh := by
    unfold handleMemEvent
    rw [if_neg hf, hx]
  rw [hsame]
  exact ⟨rfl, rfl, rfl, rfl, rfl, rfl⟩

/-- Witness of C9: an allocation pending at address 100, free of address 300. -/
theorem C9_orphan_free_dropped_witness :
    ((freeEvent 300 0 9).Type_ ≠ CudaMemAlloc ∧
      GoMap.get (withAllocs [allocEvent 100 64 1]).memAllocEvents (freeEvent 300 0 9).Addr
        = none) ∧
    (withAllocs [allocEvent 100 64 1]).handleMemEvent (freeEvent 300 0 9) =
      withAllocs [allocEvent 100 64 1] :=
  ⟨⟨by decide, by decide⟩,
    (C9_orphan_free_dropped (withAllocs [allocEvent 100 64 1]) (freeEvent 300 0 9)
      (by decide) (by decide)).1⟩

/-- C10: last write wins on address reuse.  After two allocate events `a1` then `a2` of the
same address `x`, the pending entry of `x` is `a2` and the handler is the one reached by
handling `a2` alone, so nothing observed later depends on `a1`; a following free `f` of `x`
appends exactly one closed allocation, with the timestamp and the size of `a2`, and leaves
`x` without a pending entry. -/
theorem C10_last_write_wins (sh : streamHandler) (a1 a2 f : CudaMemEvent)
    (h1 : a1.Type_ = CudaMemAlloc) (h2 : a2.Type_ = CudaMemAlloc)
    (hx : a2.Addr = a1.Addr) (hf : f.Type_ ≠ CudaMemAlloc) (hfx : f.Addr = a1.Addr) :
    GoMap.get ((sh.handleMemEvent a1).handleMemEvent a2).memAllocEvents a1.Addr = some a2 ∧
    (sh.handleMemEvent a1).handleMemEvent a2 = sh.handleMemEvent a2 ∧
    (((sh.handleMemEvent a1).handleMemEvent a2).handleMemEvent f).allocations =
      sh.allocations ++
        [{ startKtime := a2.Header.Ktime_ns, endKtime := f.Header.Ktime_ns, size := a2.Size,
           isLeaked := false }] ∧
    GoMap.get (((sh.handleMemEvent a1).handleMemEvent a2).handleMemEvent f).memAllocEvents
      a1.Addr = none := by
  have hget : GoMap.get ((sh.handleMemEvent a1).handleMemEvent a2).memAllocEvents a1.Addr
      = some a2 := by
    rw [handleMemEvent_alloc h2, hx]
    exact GoMap.get_set_self _ _ _
  have hsame : (sh.handleMemEvent a1).handleMemEvent a2 = sh.handleMemEvent a2 := by
    rw [handleMemEvent_alloc h2, handleMemEvent_alloc h2, handleMemEvent_alloc h1, hx]
    simp only [GoMap.set_set]
  have hget2 : GoMap.get ((sh.handleMemEvent a1).handleMemEvent a2).memAllocEvents f.Addr
      = some a2 := by
    rw [hfx]
    exact hget
  refine ⟨hget, hsame, ?_, ?_⟩
  · rw [handleMemEvent_free_some hf hget2]
    simp only
    rw [handleMemEvent_alloc h2, handleMemEvent_alloc h1]
  · rw [handleMemEvent_free_some hf hget2]
    simp only
    rw [hfx]
    exact GoMap.get_delete_self _ _

/-- Witness of C10: address 100 allocated at time 1 (size 64) and again at time 2 (size 32),
freed at time 9. -/
theorem C10_last_write_wins_witness :
    ((allocEvent 100 64 1).Type_ = CudaMemAlloc ∧ (allocEvent 100 32 2).Type_ = CudaMemAlloc ∧
      (allocEvent 100 32 2).Addr = (allocEvent 100 64 1).Addr ∧
      (freeEvent 100 0 9).Type_ ≠ CudaMemAlloc ∧
      (freeEvent 100 0 9).Addr = (allocEvent 100 64 1).Addr) ∧
    (((newStreamHandler.handleMemEvent (allocEvent 100 64 1)).handleMemEvent
        (allocEvent 100 32 2)).handleMemEvent (freeEvent 100 0 9)).allocations =
      newStreamHandler.allocations ++
        [{ startKtime := (allocEvent 100 32 2).Header.Ktime_ns,
           endKtime := (freeEvent 100 0 9).Header.Ktime_ns,
           size := (allocEvent 100 32 2).Size, isLeaked := false }] :=
  ⟨⟨by decide, by decide, by decide, by decide, by decide⟩,
    (C10_last_write_wins newStreamHandler (allocEvent 100 64 1) (allocEvent 100 32 2)
      (freeEvent 100 0 9) (by decide) (by decide) (by decide) (by decide) (by decide)).2.2.1⟩

/-! ## Stream end and snapshots: claims C11 to C17 -/

/-- A synchronization touches neither the memory events, nor the closed allocations, nor
the end marker. -/
theorem markSynchronization_frame (sh : streamHandler) (ts : Nat) :
    (sh.markSynchronization ts).memAllocEvents = sh.memAllocEvents ∧
    (sh.markSynchronization ts).allocations = sh.allocations ∧
    (sh.markSynchronization ts).processEnded = sh.processEnded := by
  cases h : sh.getCurrentKernelSpan ts with
  | none =>
    rw [markSynchronization_of_none h]
    exact ⟨rfl, rfl, rfl⟩
  | some span =>
    rw [markSynchronization_of_some h]
    exact ⟨rfl, rfl, rfl⟩

/-- A non-negative `int64` keeps its value when converted to `uint64`. -/
theorem uint64OfInt64_of_nonneg {nowTs : Int} (h0 : 0 ≤ nowTs) (h1 : nowTs < 2 ^ 63) :
    ((uint64OfInt64 nowTs : Nat) : Int) = nowTs := by
  unfold uint64OfInt64
  rw [Int.emod_eq_of_lt h0 (by omega), Int.toNat_of_nonneg h0]

/-- Fields of the handler after a successful `markEnd`. -/
theorem markEnd_ok (sh : streamHandler) (nowTs : Int) :
    (sh.markEnd (.ok nowTs)).1 = none ∧
    (sh.markEnd (.ok nowTs)).2.allocations =
      sh.allocations ++ sh.memAllocEvents.map (leakedAllocation (uint64OfInt64 nowTs)) ∧
    (sh.markEnd (.ok nowTs)).2.memAllocEvents = sh.memAllocEvents ∧
    (sh.markEnd (.ok nowTs)).2.processEnded = true := by
  obtain ⟨hm, ha, hp⟩ :=
    markSynchronization_frame { sh with processEnded := true } (uint64OfInt64 nowTs)
  refine ⟨rfl, ?_, hm, hp⟩
  show (({ sh with processEnded := true } : streamHandler).markSynchronization
      (uint64OfInt64 nowTs)).allocations ++
    (({ sh with processEnded := true } : streamHandler).markSynchronization
      (uint64OfInt64 nowTs)).memAllocEvents.map
        (fun e => ({ startKtime := e.2.Header.Ktime_ns, endKtime := uint64OfInt64 nowTs,
                     size := e.2.Size, isLeaked := true } : memoryAllocation)) = _
  rw [ha, hm]
  rfl

/-- C11: when the time source succeeds with the value `nowTs`, `markEnd` returns no error,
keeps the closed allocations already present and appends after them exactly one record per
entry of `memAllocEvents` (the appended records are a permutation of the entries' records),
each with the timestamp and the size of the pending event, `endKtime = uint64(nowTs)` and
`isLeaked = true`; `processEnded` becomes true.  For a non-negative `int64` value `nowTs`
the conversion `uint64(nowTs)` is `nowTs` itself. -/
theorem C11_markEnd_closes_pending (sh : streamHandler) (nowTs : Int) :
    (sh.markEnd (.ok nowTs)).1 = none ∧
    (∃ leaked : List memoryAllocation,
      (sh.markEnd (.ok nowTs)).2.allocations = sh.allocations ++ leaked ∧
      leaked.length = sh.memAllocEvents.length ∧
      leaked.Perm (sh.memAllocEvents.map (fun e =>
        ({ startKtime := e.2.Header.Ktime_ns, endKtime := uint64OfInt64 nowTs,
           size := e.2.Size, isLeaked := true } : memoryAllocation)))) ∧
    (sh.markEnd (.ok nowTs)).2.processEnded = true ∧
    (0 ≤ nowTs → nowTs < 2 ^ 63 → ((uint64OfInt64 nowTs : Nat) : Int) = nowTs) := by
  obtain ⟨herr, hall, -, hend⟩ := markEnd_ok sh nowTs
  refine ⟨herr, ⟨_, hall, by simp, List.Perm.refl _⟩, hend, ?_⟩
  intro h0 h1
  exact uint64OfInt64_of_nonneg h0 h1

/-- Witness of C11: allocations pending at addresses 100 and 200, one closed allocation,
stream end at time 50. -/
theorem C11_markEnd_closes_pending_witness :
    ((0 : Int) ≤ 50 ∧ (50 : Int) < 2 ^ 63) ∧
    ((withAllocs [allocEvent 100 64 1, allocEvent 200 32 2, allocEvent 300 8 3,
        freeEvent 300 0 4]).markEnd (.ok 50)).2.allocations =
      [{ startKtime := 3, endKtime := 4, size := 8, isLeaked := false },
       { startKtime := 1, endKtime := 50, size := 64, isLeaked := true },
       { startKtime := 2, endKtime := 50, size := 32, isLeaked := true }] ∧
    ((uint64OfInt64 50 : Nat) : Int) = 50 :=
  ⟨⟨by decide, by decide⟩, by decide,
    (C11_markEnd_closes_pending
      (withAllocs [allocEvent 100 64 1, allocEvent 200 32 2, allocEvent 300 8 3,
        freeEvent 300 0 4]) 50).2.2.2 (by decide) (by decide)⟩

/-- C12 fails on the code: `markEnd` appends the leaked records but leaves the entries in
`memAllocEvents`.  With one allocation pending at address 100 (size 64, time 1), after a
successful `markEnd` at time 10 the call `getCurrentData(20)` returns a snapshot that still
lists that allocation as open, while `getPastData` lists it as leaked. -/
theorem C12_open_allocation_after_markEnd :
    ((withAllocs [allocEvent 100 64 1]).markEnd (.ok 10)).1 = none ∧
    (((withAllocs [allocEvent 100 64 1]).markEnd (.ok 10)).2).getCurrentData 20 =
      some { key := streamKey.zero, spans := [],
             allocations := [{ startKtime := 1, endKtime := 0, size := 64, isLeaked := false }] } ∧
    ((((withAllocs [allocEvent 100 64 1]).markEnd (.ok 10)).2).getPastData true).1 =
      some { key := streamKey.zero, spans := [],
             allocations := [{ startKtime := 1, endKtime := 10, size := 64, isLeaked := true }] } := by
  refine ⟨by decide, by decide, by decide⟩

theorem getPastData_of_empty {sh : streamHandler} (flush : Bool)
    (h : sh.kernelSpans = [] ∧ sh.allocations = []) : sh.getPastData flush = (none, sh) := by
  unfold getPastData
  rw [if_pos (by simp [h.1, h.2])]

theorem getPastData_of_nonempty {sh : streamHandler} (flush : Bool)
    (h : ¬ (sh.kernelSpans = [] ∧ sh.allocations = [])) :
    sh.getPastData flush =
      (some { key := streamKey.zero, spans := sh.kernelSpans, allocations := sh.allocations },
        if flush then { sh with kernelSpans := [], allocations := [] } else sh) := by
  unfold getPastData
  rw [if_neg (by simpa [List.length_eq_zero] using h)]
  cases flush <;> simp

/-- C13: `getPastData(flush)` returns nothing exactly when `kernelSpans` and `allocations`
are both empty; otherwise it returns a snapshot whose spans are `kernelSpans` and whose
allocations are `allocations`, same elements in the same order, as they were before the
call. -/
theorem C13_getPastData_result (sh : streamHandler) (flush : Bool) :
    ((sh.getPastData flush).1 = none ↔ sh.kernelSpans = [] ∧ sh.allocations = []) ∧
    (¬ (sh.kernelSpans = [] ∧ sh.allocations = []) →
      ∃ data : streamData, (sh.getPastData flush).1 = some data ∧
        data.spans = sh.kernelSpans ∧ data.allocations = sh.allocations) := by
  by_cases h : sh.kernelSpans = [] ∧ sh.allocations = []
  · rw [getPastData_of_empty flush h]
    exact ⟨⟨fun _ => h, fun _ => rfl⟩, fun hn => absurd h hn⟩
  · rw [getPastData_of_nonempty flush h]
    refine ⟨⟨fun hnone => ?_, fun hh => absurd hh h⟩, fun _ => ⟨_, rfl, rfl, rfl⟩⟩
    exact Option.noConfusion hnone

/-- Witness of C13: one closed span and no closed allocation. -/
theorem C13_getPastData_result_witness :
    ¬ ((run [.handleKernelLaunch (launchAt 1 8 2), .markSynchronization 5]).kernelSpans = [] ∧
      (run [.handleKernelLaunch (launchAt 1 8 2), .markSynchronization 5]).allocations = []) ∧
    ∃ data : streamData,
      ((run [.handleKernelLaunch (launchAt 1 8 2), .markSynchronization 5]).getPastData
        true).1 = some data ∧
      data.spans = (run [.handleKernelLaunch (launchAt 1 8 2),
        .markSynchronization 5]).kernelSpans ∧
      data.allocations = (run [.handleKernelLaunch (launchAt 1 8 2),
        .markSynchronization 5]).allocations :=
  ⟨by decide,
    (C13_getPastData_result (run [.handleKernelLaunch (launchAt 1 8 2),
      .markSynchronization 5]) true).2 (by decide)⟩

/-- C14: `getPastData(false)` leaves the handler as it is; `getPastData(true)` leaves
`kernelSpans` and `allocations` empty, so that a following `getPastData` returns nothing,
and leaves `kernelLaunches`, `memAllocEvents` and `processEnded` unchanged. -/
theorem C14_getPastData_frame (sh : streamHandler) :
    (sh.getPastData false).2 = sh ∧
    (sh.getPastData true).2.kernelSpans = [] ∧
    (sh.getPastData true).2.allocations = [] ∧
    (∀ flush : Bool, ((sh.getPastData true).2.getPastData flush).1 = none) ∧
    (sh.getPastData true).2.kernelLaunches = sh.kernelLaunches ∧
    (sh.getPastData true).2.memAllocEvents = sh.memAllocEvents ∧
    (sh.getPastData true).2.processEnded = sh.processEnded := by
  by_cases h : sh.kernelSpans = [] ∧ sh.allocations = []
  · rw [getPastData_of_empty false h, getPastData_of_empty true h]
    refine ⟨rfl, h.1, h.2, fun flush => ?_, rfl, rfl, rfl⟩
    rw [getPastData_of_empty flush h]
  · rw [getPastData_of_nonempty false h, getPastData_of_nonempty true h]
    refine ⟨rfl, rfl, rfl, fun flush => ?_, rfl, rfl, rfl⟩
    rw [getPastData_of_empty flush ⟨rfl, rfl⟩]

/-- C15: `getCurrentData(now)` does not modify the handler: all its fields are the same
before and after the call.  A second call with the same `now` therefore reads the same
handler; whatever the order in which the range over the map visits its entries (any
permutation `m` of `memAllocEvents`), both calls return nothing or both return snapshots
with the same spans and the same allocations up to order. -/
theorem C15_getCurrentData_readonly (sh : streamHandler) (now : Nat) :
    Op.apply sh (.getCurrentData now) = sh ∧
    (Op.apply sh (.getCurrentData now)).kernelLaunches = sh.kernelLaunches ∧
    (Op.apply sh (.getCurrentData now)).memAllocEvents = sh.memAllocEvents ∧
    (Op.apply sh (.getCurrentData now)).kernelSpans = sh.kernelSpans ∧
    (Op.apply sh (.getCurrentData now)).allocations = sh.allocations ∧
    (Op.apply sh (.getCurrentData now)).processEnded = sh.processEnded ∧
    (Op.apply sh (.getCurrentData now)).getCurrentData now = sh.getCurrentData now ∧
    (∀ m : List (Nat × CudaMemEvent), m.Perm sh.memAllocEvents →
      (sh.getCurrentData now = none ∧
        ({ sh with memAllocEvents := m } : streamHandler).getCurrentData now = none) ∨
      (∃ d1 d2 : streamData, sh.getCurrentData now = some d1 ∧
        ({ sh with memAllocEvents := m } : streamHandler).getCurrentData now = some d2 ∧
        d1.spans = d2.spans ∧ d1.allocations.Perm d2.allocations)) := by
  refine ⟨rfl, rfl, rfl, rfl, rfl, rfl, rfl, ?_⟩
  intro m hm
  have hg : ({ sh with memAllocEvents := m } : streamHandler).getCurrentKernelSpan now =
      sh.getCurrentKernelSpan now := rfl
  by_cases h : sh.kernelLaunches.length = 0 ∧ sh.memAllocEvents.length = 0
  · left
    unfold getCurrentData
    rw [if_pos h, if_pos ⟨h.1, by rw [hm.length_eq]; exact h.2⟩]
    exact ⟨rfl, rfl⟩
  · right
    unfold getCurrentData
    rw [if_neg h, if_neg (by rw [hm.length_eq]; exact h)]
    refine ⟨_, _, rfl, rfl, ?_, ?_⟩
    · simp only [hg]
    · exact (hm.map _).symm

/-- Witness of C15: a pending launch and two pending allocations, read in either order. -/
theorem C15_getCurrentData_readonly_witness :
    [(200, allocEvent 200 32 2), (100, allocEvent 100 64 1)].Perm
      ((withAllocs [allocEvent 100 64 1, allocEvent 200 32 2]).handleKernelLaunch
        (launchAt 3 8 2)).memAllocEvents ∧
    ((((withAllocs [allocEvent 100 64 1, allocEvent 200 32 2]).handleKernelLaunch
          (launchAt 3 8 2)).getCurrentData 9 = none ∧
        ({ ((withAllocs [allocEvent 100 64 1, allocEvent 200 32 2]).handleKernelLaunch
            (launchAt 3 8 2)) with
          memAllocEvents := [(200, allocEvent 200 32 2), (100, allocEvent 100 64 1)] } :
          streamHandler).getCurrentData 9 = none) ∨
      (∃ d1 d2 : streamData,
        ((withAllocs [allocEvent 100 64 1, allocEvent 200 32 2]).handleKernelLaunch
          (launchAt 3 8 2)).getCurrentData 9 = some d1 ∧
        ({ ((withAllocs [allocEvent 100 64 1, allocEvent 200 32 2]).handleKernelLaunch
            (launchAt 3 8 2)) with
          memAllocEvents := [(200, allocEvent 200 32 2), (100, allocEvent 100 64 1)] } :
          streamHandler).getCurrentData 9 = some d2 ∧
        d1.spans = d2.spans ∧ d1.allocations.Perm d2.allocations)) :=
  ⟨by decide,
    (C15_getCurrentData_readonly
      ((withAllocs [allocEvent 100 64 1, allocEvent 200 32 2]).handleKernelLaunch
        (launchAt 3 8 2)) 9).2.2.2.2.2.2.2 _ (by decide)⟩

theorem getCurrentData_of_empty {sh : streamHandler} (now : Nat)
    (h : sh.kernelLaunches = [] ∧ sh.memAllocEvents = []) : sh.getCurrentData now = none := by
  unfold getCurrentData
  rw [if_pos (by simp [h.1, h.2])]

theorem getCurrentData_of_nonempty {sh : streamHandler} (now : Nat)
    (h : ¬ (sh.kernelLaunches = [] ∧ sh.memAllocEvents = [])) :
    sh.getCurrentData now =
      some { key := streamKey.zero, spans := (sh.getCurrentKernelSpan now).toList,
             allocations := sh.memAllocEvents.map openAllocation } := by
  unfold getCurrentData
  rw [if_neg (by simpa [List.length_eq_zero] using h)]
  cases hg : sh.getCurrentKernelSpan now <;> rfl

/-- C16: `getCurrentData(now)` returns nothing exactly when `kernelLaunches` and
`memAllocEvents` are both empty; in particular, pending launches that are all at or after
`now` still give a snapshot, one without a span. -/
theorem C16_getCurrentData_nil_iff (sh : streamHandler) (now : Nat) :
    (sh.getCurrentData now = none ↔ sh.kernelLaunches = [] ∧ sh.memAllocEvents = []) ∧
    (sh.kernelLaunches ≠ [] → (∀ l ∈ sh.kernelLaunches, now ≤ l.Header.Ktime_ns) →
      ∃ data : streamData, sh.getCurrentData now = some data ∧ data.spans = []) := by
  constructor
  · by_cases h : sh.kernelLaunches = [] ∧ sh.memAllocEvents = []
    · exact ⟨fun _ => h, fun _ => getCurrentData_of_empty now h⟩
    · rw [getCurrentData_of_nonempty now h]
      exact ⟨fun hnone => Option.noConfusion hnone, fun hh => absurd hh h⟩
  · intro hne hall
    rw [getCurrentData_of_nonempty now (fun hh => hne hh.1)]
    refine ⟨_, rfl, ?_⟩
    have hnone : sh.getCurrentKernelSpan now = none :=
      (getCurrentKernelSpan_eq_none_iff sh now).mpr
        ((folded_eq_nil_iff sh now).mpr (fun l hl => Nat.not_lt.mpr (hall l hl)))
    simp only [hnone, Option.toList]

/-- Witness of C16: the only pending launch is at time 9, the snapshot is taken at 5. -/
theorem C16_getCurrentData_nil_iff_witness :
    ((withLaunches [launchAt 9 8 2]).kernelLaunches ≠ [] ∧
      ∀ l ∈ (withLaunches [launchAt 9 8 2]).kernelLaunches, 5 ≤ l.Header.Ktime_ns) ∧
    (withLaunches [launchAt 9 8 2]).getCurrentData 5 =
      some { key := streamKey.zero, spans := [], allocations := [] } ∧
    ∃ data : streamData,
      (withLaunches [launchAt 9 8 2]).getCurrentData 5 = some data ∧ data.spans = [] :=
  ⟨⟨by decide, by decide⟩, by decide,
    (C16_getCurrentData_nil_iff (withLaunches [launchAt 9 8 2]) 5).2 (by decide) (by decide)⟩

/-- C17: when `getCurrentData(now)` returns a snapshot, its spans are the single span of
`getCurrentKernelSpan(now)` when there is one and no span otherwise, and its allocations
are, up to order, exactly one record per entry of `memAllocEvents`, with the timestamp and
the size of the pending event, `endKtime = 0` and `isLeaked = false`. -/
theorem C17_getCurrentData_contents (sh : streamHandler) (now : Nat) (data : streamData)
    (h : sh.getCurrentData now = some data) :
    (∀ span : kernelSpan, sh.getCurrentKernelSpan now = some span → data.spans = [span]) ∧
    (sh.getCurrentKernelSpan now = none → data.spans = []) ∧
    data.allocations.length = sh.memAllocEvents.length ∧
    data.allocations.Perm (sh.memAllocEvents.map (fun e =>
      ({ startKtime := e.2.Header.Ktime_ns, endKtime := 0, size := e.2.Size,
         isLeaked := false } : memoryAllocation))) := by
  have hne : ¬ (sh.kernelLaunches = [] ∧ sh.memAllocEvents = []) := by
    intro hh
    rw [getCurrentData_of_empty now hh] at h
    exact Option.noConfusion h
  rw [getCurrentData_of_nonempty now hne] at h
  have hd := Option.some.inj h
  subst hd
  refine ⟨?_, ?_, by simp, List.Perm.refl _⟩
  · intro span hs
    simp only [hs, Option.toList]
  · intro hs
    simp only [hs, Option.toList]

/-- Witness of C17: a launch at time 3 and allocations pending at addresses 100 and 200,
snapshot at time 9. -/
theorem C17_getCurrentData_contents_witness :
    ((withAllocs [allocEvent 100 64 1, allocEvent 200 32 2]).handleKernelLaunch
        (launchAt 3 8 2)).getCurrentData 9 =
      some { key := streamKey.zero,
             spans := [{ startKtime := 3, endKtime := 9, avgThreadCount := 16, numKernels := 1 }],
             allocations := [{ startKtime := 1, endKtime := 0, size := 64, isLeaked := false },
                             { startKtime := 2, endKtime := 0, size := 32, isLeaked := false }] } ∧
    ([{ startKtime := 1, endKtime := 0, size := 64, isLeaked := false },
      { startKtime := 2, endKtime := 0, size := 32, isLeaked := false }] :
        List memoryAllocation).length =
      ((withAllocs [allocEvent 100 64 1, allocEvent 200 32 2]).handleKernelLaunch
        (launchAt 3 8 2)).memAllocEvents.length :=
  ⟨by decide,
    (C17_getCurrentData_contents
      ((withAllocs [allocEvent 100 64 1, allocEvent 200 32 2]).handleKernelLaunch
        (launchAt 3 8 2)) 9
      { key := streamKey.zero,
        spans := [{ startKtime := 3, endKtime := 9, avgThreadCount := 16, numKernels := 1 }],
        allocations := [{ startKtime := 1, endKtime := 0, size := 64, isLeaked := false },
                        { startKtime := 2, endKtime := 0, size := 32, isLeaked := false }] }
      (by decide)).2.2.1⟩

/-! ## Aggregator: claims C18 to C20 -/

open aggregator

/-- An integer of the `int64` range is its own two's-complement reduction. -/
theorem wrapInt64_of_range {x : Int} (h0 : -2 ^ 63 ≤ x) (h1 : x < 2 ^ 63) : wrapInt64 x = x := by
  unfold wrapInt64
  omega

/-- Reducing the minuend first does not change a reduced difference. -/
theorem wrapInt64_sub_wrapInt64 (a b : Int) : wrapInt64 (wrapInt64 a - b) = wrapInt64 (a - b) := by
  unfold wrapInt64
  omega

/-- A `uint64` below `2 ^ 63` keeps its value when converted to `int64`. -/
theorem int64OfUint64_of_lt {n : Nat} (h : n < 2 ^ 63) : int64OfUint64 n = (n : Int) := by
  unfold int64OfUint64
  exact wrapInt64_of_range (by omega) (by omega)

/-- Total of `processKernelSpan`, as the source computes it. -/
theorem processKernelSpan_total (agg : aggregator) (span : kernelSpan) :
    (agg.processKernelSpan span).totalThreadSecondsUsed =
      agg.totalThreadSecondsUsed +
        ((wrapInt64 (int64OfUint64 span.endKtime -
            (if agg.lastCheckKtime > int64OfUint64 span.startKtime then agg.lastCheckKtime
             else int64OfUint64 span.startKtime)) : Int) : ℚ) / nsecPerSec *
          ((min span.avgThreadCount (agg.sysCtx.maxGpuThreadsPerDevice0 % 2 ^ 64) : Nat) : ℚ) :=
  rfl

/-- C18 fails as stated: for a span with `startKtime = 2 ^ 63` and
`endKtime = 2 ^ 63 + 10 ^ 9` the conversions `int64(span.startKtime)` and
`int64(span.endKtime)` are negative.  With capacity 100, `lastCheckKtime = 0` and
`avgThreadCount = 1` the total goes from 0 to `(10 ^ 9 - 2 ^ 63) / 10 ^ 9`, a negative
number, whereas the stated increase is 1. -/
theorem C18_processKernelSpan_counterexample :
    ((aggregatorAt 100 0 1000000000).processKernelSpan
        { startKtime := 9223372036854775808, endKtime := 9223372037854775808,
          avgThreadCount := 1, numKernels := 1 }).totalThreadSecondsUsed =
      ((1000000000 - 9223372036854775808 : Int) : ℚ) / 1000000000 ∧
    (aggregatorAt 100 0 1000000000).totalThreadSecondsUsed +
      ((((9223372037854775808 : Nat) : Int) -
          max ((9223372036854775808 : Nat) : Int) (aggregatorAt 100 0 1000000000).lastCheckKtime
          : Int) : ℚ) / 1000000000 *
        ((min 1 (aggregatorAt 100 0 1000000000).sysCtx.maxGpuThreadsPerDevice0 : Nat) : ℚ) = 1 ∧
    ((1000000000 - 9223372036854775808 : Int) : ℚ) / 1000000000 ≠ 1 := by
  refine ⟨?_, ?_, ?_⟩
  · rw [processKernelSpan_total]
    norm_num [aggregatorAt, newAggregator, int64OfUint64, wrapInt64, nsecPerSec]
  · norm_num [aggregatorAt, newAggregator]
  · norm_num

/-- C18, amended: for a span whose `startKtime` and `endKtime` are below `2 ^ 63` (so
that the `int64` conversions keep their values; `lastCheckKtime` and the device capacity
are machine integers), `processKernelSpan` changes only `totalThreadSecondsUsed`, and
increases it, in exact arithmetic, by
`((endKtime - max(startKtime, lastCheckKtime)) / 10 ^ 9) * min(avgThreadCount, capacity)`.
That no other field changes holds for every span. -/
theorem C18_processKernelSpan (agg : aggregator) (span : kernelSpan)
    (hstart : span.startKtime < 2 ^ 63) (hend : span.endKtime < 2 ^ 63)
    (hlast : agg.lastCheckKtime < 2 ^ 63)
    (hcap : agg.sysCtx.maxGpuThreadsPerDevice0 < 2 ^ 64) :
    (agg.processKernelSpan span).totalThreadSecondsUsed =
      agg.totalThreadSecondsUsed +
        ((((span.endKtime : Int) - max (span.startKtime : Int) agg.lastCheckKtime : Int) : ℚ)
          / 1000000000) *
          ((min span.avgThreadCount agg.sysCtx.maxGpuThreadsPerDevice0 : Nat) : ℚ) ∧
    (agg.processKernelSpan span).lastCheckKtime = agg.lastCheckKtime ∧
    (agg.processKernelSpan span).measuredIntervalNs = agg.measuredIntervalNs ∧
    (agg.processKernelSpan span).currentAllocs = agg.currentAllocs ∧
    (agg.processKernelSpan span).pastAllocs = agg.pastAllocs ∧
    (agg.processKernelSpan span).utilizationNormFactor = agg.utilizationNormFactor ∧
    (agg.processKernelSpan span).processEnded = agg.processEnded ∧
    (agg.processKernelSpan span).sysCtx = agg.sysCtx := by
  refine ⟨?_, rfl, rfl, rfl, rfl, rfl, rfl, rfl⟩
  rw [processKernelSpan_total, int64OfUint64_of_lt hstart, int64OfUint64_of_lt hend,
    Nat.mod_eq_of_lt hcap]
  have hclip : (if agg.lastCheckKtime > (span.startKtime : Int) then agg.lastCheckKtime
      else (span.startKtime : Int)) = max (span.startKtime : Int) agg.lastCheckKtime := by
    split
    · exact (max_eq_right (by omega)).symm
    · exact (max_eq_left (by omega)).symm
  rw [hclip]
  have hmax0 : (0 : Int) ≤ max (span.startKtime : Int) agg.lastCheckKtime :=
    le_trans (Int.ofNat_nonneg _) (le_max_left _ _)
  have hmax1 : max (span.startKtime : Int) agg.lastCheckKtime < 2 ^ 63 :=
    max_lt (by omega) hlast
  rw [wrapInt64_of_range (by omega) (by omega)]
  rfl

/-- Witness of C18: capacity 100, last check at time 2, span from 1 to 10 with 250
threads on average. -/
theorem C18_processKernelSpan_witness :
    ((1 : Nat) < 2 ^ 63 ∧ (10 : Nat) < 2 ^ 63 ∧ (aggregatorAt 100 2 8).lastCheckKtime < 2 ^ 63 ∧
      (aggregatorAt 100 2 8).sysCtx.maxGpuThreadsPerDevice0 < 2 ^ 64) ∧
    ((aggregatorAt 100 2 8).processKernelSpan
        { startKtime := 1, endKtime := 10, avgThreadCount := 250, numKernels := 3
        }).totalThreadSecondsUsed =
      (aggregatorAt 100 2 8).totalThreadSecondsUsed +
        (((((10 : Nat) : Int) - max ((1 : Nat) : Int) (aggregatorAt 100 2 8).lastCheckKtime
          : Int) : ℚ) / 1000000000) *
          ((min 250 (aggregatorAt 100 2 8).sysCtx.maxGpuThreadsPerDevice0 : Nat) : ℚ) :=
  ⟨⟨by decide, by decide, by decide, by decide⟩,
    (C18_processKernelSpan (aggregatorAt 100 2 8)
      { startKtime := 1, endKtime := 10, avgThreadCount := 250, numKernels := 3 }
      (by decide) (by decide) (by decide) (by decide)).1⟩

theorem float64Div_of_ne_zero (x : ℚ) {y : ℚ} (h : y ≠ 0) : float64Div x y = some (x / y) := by
  unfold float64Div
  rw [if_neg h]

theorem float64Div_zero (x : ℚ) : float64Div x 0 = none := by
  unfold float64Div
  rw [if_pos rfl]

/-- Result of `getGPUUtilization` over a non-positive interval. -/
theorem getGPUUtilization_of_nonpos {agg : aggregator} (h : agg.measuredIntervalNs ≤ 0) :
    agg.getGPUUtilization = some 0 := by
  have hns : (0 : ℚ) < nsecPerSec := by norm_num [nsecPerSec]
  have hq : (agg.measuredIntervalNs : ℚ) ≤ 0 := by exact_mod_cast h
  unfold getGPUUtilization
  simp only
  rw [if_neg (not_lt.mpr (div_nonpos_of_nonpos_of_nonneg hq hns.le))]

/-- Result of `getGPUUtilization` over a positive interval. -/
theorem getGPUUtilization_of_pos {agg : aggregator} (h : 0 < agg.measuredIntervalNs) :
    0 < (agg.measuredIntervalNs : ℚ) / nsecPerSec ∧
    agg.getGPUUtilization =
      float64Div agg.totalThreadSecondsUsed
        ((agg.sysCtx.maxGpuThreadsPerDevice0 : ℚ) * ((agg.measuredIntervalNs : ℚ) / nsecPerSec)) := by
  have hns : (0 : ℚ) < nsecPerSec := by norm_num [nsecPerSec]
  have hq : (0 : ℚ) < (agg.measuredIntervalNs : ℚ) := by exact_mod_cast h
  have hpos : 0 < (agg.measuredIntervalNs : ℚ) / nsecPerSec := div_pos hq hns
  refine ⟨hpos, ?_⟩
  unfold getGPUUtilization
  simp only
  rw [if_pos hpos]

/-- C19: `getGPUUtilization` returns 0 when `measuredIntervalNs ≤ 0`, without dividing.
When `measuredIntervalNs > 0` the interval in seconds by which it divides is positive and
the result is the `float64` quotient
`totalThreadSecondsUsed / (capacity * measuredIntervalNs / 10 ^ 9)`: that number when the
capacity is not zero, an infinity or NaN (`none`) when it is zero.  The method only reads
the aggregator: its embedding returns the value alone. -/
theorem C19_getGPUUtilization (agg : aggregator) :
    (agg.measuredIntervalNs ≤ 0 → agg.getGPUUtilization = some 0) ∧
    (0 < agg.measuredIntervalNs →
      0 < (agg.measuredIntervalNs : ℚ) / nsecPerSec ∧
      agg.getGPUUtilization =
        float64Div agg.totalThreadSecondsUsed
          ((agg.sysCtx.maxGpuThreadsPerDevice0 : ℚ) * (agg.measuredIntervalNs : ℚ)
            / 1000000000) ∧
      (agg.sysCtx.maxGpuThreadsPerDevice0 ≠ 0 →
        agg.getGPUUtilization =
          some (agg.totalThreadSecondsUsed /
            ((agg.sysCtx.maxGpuThreadsPerDevice0 : ℚ) * (agg.measuredIntervalNs : ℚ)
              / 1000000000))) ∧
      (agg.sysCtx.maxGpuThreadsPerDevice0 = 0 → agg.getGPUUtilization = none)) := by
  refine ⟨getGPUUtilization_of_nonpos, ?_⟩
  intro h
  obtain ⟨hpos, hres⟩ := getGPUUtilization_of_pos h
  have hq : (0 : ℚ) < (agg.measuredIntervalNs : ℚ) := by exact_mod_cast h
  have hform : (agg.sysCtx.maxGpuThreadsPerDevice0 : ℚ) *
      ((agg.measuredIntervalNs : ℚ) / nsecPerSec) =
      (agg.sysCtx.maxGpuThreadsPerDevice0 : ℚ) * (agg.measuredIntervalNs : ℚ) / 1000000000 := by
    rw [mul_div_assoc]
    rfl
  rw [hform] at hres
  refine ⟨hpos, hres, ?_, ?_⟩
  · intro hcap
    have hcapq : (agg.sysCtx.maxGpuThreadsPerDevice0 : ℚ) ≠ 0 := by exact_mod_cast hcap
    rw [hres]
    exact float64Div_of_ne_zero _
      (div_ne_zero (mul_ne_zero hcapq (ne_of_gt hq)) (by norm_num))
  · intro hcap
    rw [hres, hcap]
    have hz : ((0 : Nat) : ℚ) * (agg.measuredIntervalNs : ℚ) / 1000000000 = 0 := by simp
    rw [hz]
    exact float64Div_zero _

/-- Witness of C19: capacity 100, interval of `10 ^ 9` ns, 50 thread-seconds used. -/
theorem C19_getGPUUtilization_witness :
    ((0 : Int) < ({ aggregatorAt 100 0 1000000000 with
        totalThreadSecondsUsed := 50 } : aggregator).measuredIntervalNs ∧
      ({ aggregatorAt 100 0 1000000000 with
        totalThreadSecondsUsed := 50 } : aggregator).sysCtx.maxGpuThreadsPerDevice0 ≠ 0) ∧
    ({ aggregatorAt 100 0 1000000000 with
        totalThreadSecondsUsed := 50 } : aggregator).getGPUUtilization =
      some (({ aggregatorAt 100 0 1000000000 with
          totalThreadSecondsUsed := 50 } : aggregator).totalThreadSecondsUsed /
        ((({ aggregatorAt 100 0 1000000000 with
            totalThreadSecondsUsed := 50 } : aggregator).sysCtx.maxGpuThreadsPerDevice0 : ℚ) *
          (({ aggregatorAt 100 0 1000000000 with
            totalThreadSecondsUsed := 50 } : aggregator).measuredIntervalNs : ℚ)
          / 1000000000)) :=
  ⟨⟨by decide, by decide⟩,
    ((C19_getGPUUtilization { aggregatorAt 100 0 1000000000 with
      totalThreadSecondsUsed := 50 }).2 (by decide)).2.2.1 (by decide)⟩

/-- C20: device capacity `M > 0`, interval length `L > 0` ns, last check at `T` (machine
integers: `M` a `uint64` value, `L` and `T` `int64` values, `endKtime` a `uint64` value).
On an aggregator with `totalThreadSecondsUsed = 0`, `measuredIntervalNs = L` and
`lastCheckKtime = T`, absorbing one span with `startKtime ≤ T`, `endKtime = T + L` and
`avgThreadCount = M` makes `getGPUUtilization` return exactly 1. -/
theorem C20_full_span_utilization (M : Nat) (L T : Int) (agg : aggregator) (span : kernelSpan)
    (hM : 0 < M) (hM64 : M < 2 ^ 64) (hL : 0 < L) (hL63 : L < 2 ^ 63) (hT63 : T < 2 ^ 63)
    (hend64 : span.endKtime < 2 ^ 64)
    (hcap : agg.sysCtx.maxGpuThreadsPerDevice0 = M) (htotal : agg.totalThreadSecondsUsed = 0)
    (hinterval : agg.measuredIntervalNs = L) (hlast : agg.lastCheckKtime = T)
    (hstart : (span.startKtime : Int) ≤ T) (hend : (span.endKtime : Int) = T + L)
    (havg : span.avgThreadCount = M) :
    (agg.processKernelSpan span).getGPUUtilization = some 1 := by
  have hs63 : span.startKtime < 2 ^ 63 := by omega
  have hclip : (if agg.lastCheckKtime > int64OfUint64 span.startKtime then agg.lastCheckKtime
      else int64OfUint64 span.startKtime) = T := by
    rw [int64OfUint64_of_lt hs63, hlast]
    split <;> omega
  have hdur : wrapInt64 (int64OfUint64 span.endKtime - T) = L := by
    unfold int64OfUint64
    rw [wrapInt64_sub_wrapInt64, hend]
    exact (congrArg wrapInt64 (by omega)).trans (wrapInt64_of_range (by omega) hL63)
  have htot : (agg.processKernelSpan span).totalThreadSecondsUsed =
      (L : ℚ) / nsecPerSec * (M : ℚ) := by
    rw [processKernelSpan_total, hclip, hdur, htotal, havg, hcap, Nat.mod_eq_of_lt hM64,
      Nat.min_self, zero_add]
  have hLq : (0 : ℚ) < (L : ℚ) := by exact_mod_cast hL
  have hMq : (0 : ℚ) < (M : ℚ) := by exact_mod_cast hM
  have hsecs : (0 : ℚ) < (L : ℚ) / nsecPerSec := div_pos hLq (by norm_num [nsecPerSec])
  have hint : (agg.processKernelSpan span).measuredIntervalNs = L := hinterval
  have hcap2 : (agg.processKernelSpan span).sysCtx.maxGpuThreadsPerDevice0 = M := hcap
  unfold getGPUUtilization
  simp only
  rw [hint, hcap2, if_pos hsecs, htot, mul_comm ((L : ℚ) / nsecPerSec) (M : ℚ),
    float64Div_of_ne_zero _ (ne_of_gt (mul_pos hMq hsecs)),
    div_self (ne_of_gt (mul_pos hMq hsecs))]

/-- Witness of C20: capacity 100, interval of `10 ^ 9` ns after the check at time 5, span
from 3 to `5 + 10 ^ 9` with 100 threads on average. -/
theorem C20_full_span_utilization_witness :
    ((0 < 100 ∧ 100 < 2 ^ 64) ∧ ((0 : Int) < 1000000000 ∧ (1000000000 : Int) < 2 ^ 63) ∧
      (5 : Int) < 2 ^ 63 ∧ (1000000005 : Nat) < 2 ^ 64 ∧
      (((3 : Nat) : Int) ≤ 5 ∧ ((1000000005 : Nat) : Int) = 5 + 1000000000)) ∧
    ((aggregatorAt 100 5 1000000000).processKernelSpan
      { startKtime := 3, endKtime := 1000000005, avgThreadCount := 100, numKernels := 1
      }).getGPUUtilization = some 1 :=
  ⟨⟨⟨by decide, by decide⟩, ⟨by decide, by decide⟩, by decide, by decide, by decide, by decide⟩,
    C20_full_span_utilization 100 1000000000 5 (aggregatorAt 100 5 1000000000)
      { startKtime := 3, endKtime := 1000000005, avgThreadCount := 100, numKernels := 1 }
      (by decide) (by decide) (by decide) (by decide) (by decide) (by decide) rfl rfl rfl rfl
      (by decide) (by decide) rfl⟩

/-! ## Reports of the aggregator: claims C21, C22 and C28 -/

theorem getStats_snd (agg : aggregator) : (agg.getStats).2 = agg.flushProcessedStats := rfl

theorem getStats_utilization (agg : aggregator) :
    (agg.getStats).1.UtilizationPercentage =
      if agg.measuredIntervalNs > 0 then
        agg.getGPUUtilization.bind
          (fun utilization => float64Div utilization agg.utilizationNormFactor)
      else some 0 := rfl

/-- C21: the `UtilizationPercentage` returned by `getStats` is the `float64` quotient
`getGPUUtilization() / utilizationNormFactor` when `measuredIntervalNs > 0` (that number
when the factor is not zero, an infinity or NaN, `none`, when it is zero or when
`getGPUUtilization()` is one) and 0, without any division, when `measuredIntervalNs ≤ 0`.
Scenario: capacity 100, interval `10 ^ 9` ns, `lastCheckKtime` 0, one absorbed span from 0
to `10 ^ 9` with 50 threads on average: the raw utilization is `1 / 2` and, with
normalization factor 2, the reported utilization is `1 / 4`. -/
theorem C21_getStats_utilization (agg : aggregator) :
    (0 < agg.measuredIntervalNs →
      (agg.getStats).1.UtilizationPercentage =
        agg.getGPUUtilization.bind
          (fun utilization => float64Div utilization agg.utilizationNormFactor)) ∧
    (0 < agg.measuredIntervalNs → agg.utilizationNormFactor ≠ 0 →
      ∀ utilization : ℚ, agg.getGPUUtilization = some utilization →
        (agg.getStats).1.UtilizationPercentage =
          some (utilization / agg.utilizationNormFactor)) ∧
    (0 < agg.measuredIntervalNs → agg.utilizationNormFactor = 0 →
      (agg.getStats).1.UtilizationPercentage = none) ∧
    (agg.measuredIntervalNs ≤ 0 → (agg.getStats).1.UtilizationPercentage = some 0) ∧
    ((aggregatorAt 100 0 1000000000).processPastData
        { key := streamKey.zero,
          spans := [{ startKtime := 0, endKtime := 1000000000, avgThreadCount := 50,
                      numKernels := 1 }],
          allocations := [] }).getGPUUtilization = some (1 / 2) ∧
    ((((aggregatorAt 100 0 1000000000).processPastData
        { key := streamKey.zero,
          spans := [{ startKtime := 0, endKtime := 1000000000, avgThreadCount := 50,
                      numKernels := 1 }],
          allocations := [] }).setGPUUtilizationNormalizationFactor 2).getStats
      ).1.UtilizationPercentage = some (1 / 4) := by
  have hraw : ((aggregatorAt 100 0 1000000000).processPastData
        { key := streamKey.zero,
          spans := [{ startKtime := 0, endKtime := 1000000000, avgThreadCount := 50,
                      numKernels := 1 }],
          allocations := [] }).getGPUUtilization = some (1 / 2) := by
    simp only [processPastData, List.foldl_cons, List.foldl_nil, getGPUUtilization, float64Div]
    rw [processKernelSpan_total]
    norm_num [aggregatorAt, newAggregator, processKernelSpan, int64OfUint64, wrapInt64,
      nsecPerSec]
  refine ⟨?_, ?_, ?_, ?_, hraw, ?_⟩
  · intro h
    rw [getStats_utilization, if_pos h]
  · intro h hfactor utilization hutil
    rw [getStats_utilization, if_pos h, hutil]
    exact float64Div_of_ne_zero _ hfactor
  · intro h hfactor
    rw [getStats_utilization, if_pos h, hfactor]
    cases agg.getGPUUtilization with
    | none => rfl
    | some utilization => exact float64Div_zero _
  · intro h
    rw [getStats_utilization, if_neg (by omega)]
  · rw [getStats_utilization]
    have hsame : (((aggregatorAt 100 0 1000000000).processPastData
        { key := streamKey.zero,
          spans := [{ startKtime := 0, endKtime := 1000000000, avgThreadCount := 50,
                      numKernels := 1 }],
          allocations := [] }).setGPUUtilizationNormalizationFactor 2).getGPUUtilization =
        some (1 / 2) := hraw
    rw [hsame, if_pos (by decide)]
    show float64Div (1 / 2) 2 = some (1 / 4)
    rw [float64Div_of_ne_zero _ (by norm_num)]
    norm_num

/-- Witness of C21: capacity 100, interval of `10 ^ 9` ns, 50 thread-seconds used,
normalization factor 2. -/
theorem C21_getStats_utilization_witness :
    ((0 : Int) < ({ aggregatorAt 100 0 1000000000 with
        totalThreadSecondsUsed := 50, utilizationNormFactor := 2 } : aggregator).measuredIntervalNs ∧
      ({ aggregatorAt 100 0 1000000000 with
        totalThreadSecondsUsed := 50, utilizationNormFactor := 2 } : aggregator).utilizationNormFactor
        ≠ 0 ∧
      ({ aggregatorAt 100 0 1000000000 with
        totalThreadSecondsUsed := 50, utilizationNormFactor := 2 } : aggregator).getGPUUtilization
        = some (1 / 2)) ∧
    (({ aggregatorAt 100 0 1000000000 with
        totalThreadSecondsUsed := 50, utilizationNormFactor := 2 } : aggregator).getStats
      ).1.UtilizationPercentage =
      some (1 / 2 /
        ({ aggregatorAt 100 0 1000000000 with
          totalThreadSecondsUsed := 50, utilizationNormFactor := 2 } : aggregator).utilizationNormFactor) :=
  ⟨⟨by decide, by norm_num [aggregatorAt, newAggregator],
      by norm_num [getGPUUtilization, float64Div, aggregatorAt, newAggregator, nsecPerSec]⟩,
    (C21_getStats_utilization { aggregatorAt 100 0 1000000000 with
      totalThreadSecondsUsed := 50, utilizationNormFactor := 2 }).2.1 (by decide)
      (by norm_num [aggregatorAt, newAggregator]) (1 / 2)
      (by norm_num [getGPUUtilization, float64Div, aggregatorAt, newAggregator, nsecPerSec])⟩

/-- C22: after `getStats` returns, `totalThreadSecondsUsed` is 0 and `currentAllocs` and
`pastAllocs` are empty; nothing absorbed before the report is counted again: the accumulator
that the next `getStats` fills receives no event. -/
theorem C22_getStats_resets (agg : aggregator) :
    (agg.getStats).2.totalThreadSecondsUsed = 0 ∧
    (agg.getStats).2.currentAllocs = [] ∧
    (agg.getStats).2.pastAllocs = [] ∧
    ((agg.getStats).2).memTsBuilder = tseriesBuilder.empty :=
  ⟨rfl, rfl, rfl, rfl⟩

/-- C28 fails on the code: on an aggregator with `lastCheckKtime = 0` and
`measuredIntervalNs = 10 ^ 9`, the just-measured interval ends at `10 ^ 9`, and after
`getStats` the field `lastCheckKtime` is still 0. -/
theorem C28_lastCheckKtime_counterexample :
    (aggregatorAt 100 0 1000000000).lastCheckKtime +
      (aggregatorAt 100 0 1000000000).measuredIntervalNs = 1000000000 ∧
    ((aggregatorAt 100 0 1000000000).getStats).2.lastCheckKtime = 0 ∧
    (0 : Int) ≠ 1000000000 := by
  refine ⟨by decide, rfl, by decide⟩

/-- C28, amended: the reset performed by `getStats` (`flushProcessedStats`) clears only
`totalThreadSecondsUsed`, `currentAllocs` and `pastAllocs`: the aggregator afterwards is
the one before with these three fields reset, so `lastCheckKtime`, `measuredIntervalNs`,
`utilizationNormFactor`, `processEnded` and `sysCtx` are as they were.  A span absorbed
right after the report is therefore still clipped against the `lastCheckKtime` of before
the report; the boundary moves only when the caller writes the field. -/
theorem C28_getStats_keeps_lastCheckKtime (agg : aggregator) (span : kernelSpan) :
    (agg.getStats).2 =
      { agg with currentAllocs := [], pastAllocs := [], totalThreadSecondsUsed := 0 } ∧
    agg.flushProcessedStats =
      { agg with currentAllocs := [], pastAllocs := [], totalThreadSecondsUsed := 0 } ∧
    (agg.getStats).2.lastCheckKtime = agg.lastCheckKtime ∧
    (agg.getStats).2.measuredIntervalNs = agg.measuredIntervalNs ∧
    (agg.getStats).2.utilizationNormFactor = agg.utilizationNormFactor ∧
    (agg.getStats).2.processEnded = agg.processEnded ∧
    (agg.getStats).2.sysCtx = agg.sysCtx ∧
    (agg.getStats).2.totalThreadSecondsUsed = 0 ∧
    (agg.getStats).2.currentAllocs = [] ∧
    (agg.getStats).2.pastAllocs = [] ∧
    (agg.flushProcessedStats).lastCheckKtime = agg.lastCheckKtime ∧
    (((agg.getStats).2).processKernelSpan span).totalThreadSecondsUsed =
      0 + ((wrapInt64 (int64OfUint64 span.endKtime -
            (if agg.lastCheckKtime > int64OfUint64 span.startKtime then agg.lastCheckKtime
             else int64OfUint64 span.startKtime)) : Int) : ℚ) / nsecPerSec *
          ((min span.avgThreadCount (agg.sysCtx.maxGpuThreadsPerDevice0 % 2 ^ 64) : Nat) : ℚ) :=
  ⟨rfl, rfl, rfl, rfl, rfl, rfl, rfl, rfl, rfl, rfl, rfl, rfl⟩

/-! ## Thread-seconds and thread counts: claims C29 and C30 -/

/-- C29 fails as stated, at two inputs with `startKtime ≤ endKtime` and a total of 0 before
the call.  A span from 0 to 5 absorbed with `lastCheckKtime = 10` (capacity 100, 50 threads
on average) gets the duration `(5 - 10) / 10 ^ 9` and leaves the total at `-1 / 4000000`.
A span from 0 to `2 ^ 63` absorbed with `lastCheckKtime = 0` (1 thread on average) has a
negative `int64(span.endKtime)` and leaves the total at `-2 ^ 63 / 10 ^ 9`. -/
theorem C29_processKernelSpan_counterexample :
    ((aggregatorAt 100 10 1000000000).processKernelSpan
        { startKtime := 0, endKtime := 5, avgThreadCount := 50, numKernels := 1
        }).totalThreadSecondsUsed = -1 / 4000000 ∧
    ((aggregatorAt 100 10 1000000000).processKernelSpan
        { startKtime := 0, endKtime := 5, avgThreadCount := 50, numKernels := 1
        }).totalThreadSecondsUsed < (aggregatorAt 100 10 1000000000).totalThreadSecondsUsed ∧
    ((aggregatorAt 100 0 1000000000).processKernelSpan
        { startKtime := 0, endKtime := 9223372036854775808, avgThreadCount := 1,
          numKernels := 1 }).totalThreadSecondsUsed = -9223372036854775808 / 1000000000 ∧
    ((aggregatorAt 100 0 1000000000).processKernelSpan
        { startKtime := 0, endKtime := 9223372036854775808, avgThreadCount := 1,
          numKernels := 1 }).totalThreadSecondsUsed <
      (aggregatorAt 100 0 1000000000).totalThreadSecondsUsed := by
  have h1 : ((aggregatorAt 100 10 1000000000).processKernelSpan
      { startKtime := 0, endKtime := 5, avgThreadCount := 50, numKernels := 1
      }).totalThreadSecondsUsed = -1 / 4000000 := by
    rw [processKernelSpan_total]
    norm_num [aggregatorAt, newAggregator, int64OfUint64, wrapInt64, nsecPerSec]
  have h2 : ((aggregatorAt 100 0 1000000000).processKernelSpan
      { startKtime := 0, endKtime := 9223372036854775808, avgThreadCount := 1,
        numKernels := 1 }).totalThreadSecondsUsed = -9223372036854775808 / 1000000000 := by
    rw [processKernelSpan_total]
    norm_num [aggregatorAt, newAggregator, int64OfUint64, wrapInt64, nsecPerSec]
  refine ⟨h1, ?_, h2, ?_⟩
  · rw [h1]
    norm_num [aggregatorAt, newAggregator]
  · rw [h2]
    norm_num [aggregatorAt, newAggregator]

/-- C29, amended: for a span with `startKtime ≤ endKtime < 2 ^ 63` that does not end before
`lastCheckKtime`, `processKernelSpan` never decreases `totalThreadSecondsUsed`; a span that
ends exactly at `lastCheckKtime` contributes exactly zero thread-seconds. -/
theorem C29_processKernelSpan_monotone (agg : aggregator) (span : kernelSpan)
    (hspan : span.startKtime ≤ span.endKtime) (hend : span.endKtime < 2 ^ 63)
    (hlast : agg.lastCheckKtime ≤ (span.endKtime : Int)) :
    agg.totalThreadSecondsUsed ≤ (agg.processKernelSpan span).totalThreadSecondsUsed ∧
    ((span.endKtime : Int) = agg.lastCheckKtime →
      (agg.processKernelSpan span).totalThreadSecondsUsed = agg.totalThreadSecondsUsed) := by
  have hstart : span.startKtime < 2 ^ 63 := lt_of_le_of_lt hspan hend
  have hle : (span.startKtime : Int) ≤ (span.endKtime : Int) := by exact_mod_cast hspan
  have hdur : wrapInt64 (int64OfUint64 span.endKtime -
      (if agg.lastCheckKtime > int64OfUint64 span.startKtime then agg.lastCheckKtime
       else int64OfUint64 span.startKtime)) =
      (span.endKtime : Int) -
        (if agg.lastCheckKtime > (span.startKtime : Int) then agg.lastCheckKtime
         else (span.startKtime : Int)) := by
    rw [int64OfUint64_of_lt hstart, int64OfUint64_of_lt hend]
    apply wrapInt64_of_range
    · split <;> omega
    · split <;> omega
  rw [processKernelSpan_total, hdur]
  constructor
  · have hnonneg : (0 : Int) ≤ (span.endKtime : Int) -
        (if agg.lastCheckKtime > (span.startKtime : Int) then agg.lastCheckKtime
         else (span.startKtime : Int)) := by
      split <;> omega
    have hq : (0 : ℚ) ≤ (((span.endKtime : Int) -
        (if agg.lastCheckKtime > (span.startKtime : Int) then agg.lastCheckKtime
         else (span.startKtime : Int)) : Int) : ℚ) := by exact_mod_cast hnonneg
    have hns : (0 : ℚ) ≤ nsecPerSec := by norm_num [nsecPerSec]
    exact le_add_of_nonneg_right (mul_nonneg (div_nonneg hq hns) (Nat.cast_nonneg _))
  · intro heq
    have hzero : (span.endKtime : Int) -
        (if agg.lastCheckKtime > (span.startKtime : Int) then agg.lastCheckKtime
         else (span.startKtime : Int)) = 0 := by
      split <;> omega
    rw [hzero]
    simp

/-- Witness of C29: capacity 100, last check at time 2, span from 1 to 10 with 250 threads
on average. -/
theorem C29_processKernelSpan_monotone_witness :
    ((1 : Nat) ≤ 10 ∧ (10 : Nat) < 2 ^ 63 ∧
      (aggregatorAt 100 2 8).lastCheckKtime ≤ ((10 : Nat) : Int)) ∧
    (aggregatorAt 100 2 8).totalThreadSecondsUsed ≤
      ((aggregatorAt 100 2 8).processKernelSpan
        { startKtime := 1, endKtime := 10, avgThreadCount := 250, numKernels := 3
        }).totalThreadSecondsUsed :=
  ⟨⟨by decide, by decide, by decide⟩,
    (C29_processKernelSpan_monotone (aggregatorAt 100 2 8)
      { startKtime := 1, endKtime := 10, avgThreadCount := 250, numKernels := 3 }
      (by decide) (by decide) (by decide)).1⟩

/-- C30 fails on the code: for a launch with block dimensions `(1024, 1, 1)` and grid
dimensions `(1048576, 4096, 1)` the `uint32` product `blockCount` wraps from `2 ^ 32` to 0,
so the loop of `getCurrentKernelSpan` accumulates 0 threads for it, whereas the product of
the six dimensions is `4398046511104`. -/
theorem C30_thread_count_wraps :
    blockCount { Header := { Ktime_ns := 0 }, Block_size := { X := 1024, Y := 1, Z := 1 },
                 Grid_size := { X := 1048576, Y := 4096, Z := 1 } } = 0 ∧
    launchThreads { Header := { Ktime_ns := 0 }, Block_size := { X := 1024, Y := 1, Z := 1 },
                    Grid_size := { X := 1048576, Y := 4096, Z := 1 } } = 0 ∧
    (withLaunches [{ Header := { Ktime_ns := 0 }, Block_size := { X := 1024, Y := 1, Z := 1 },
                     Grid_size := { X := 1048576, Y := 4096, Z := 1 } }]).getCurrentKernelSpan 1 =
      some { startKtime := 0, endKtime := 1, avgThreadCount := 0, numKernels := 1 } ∧
    1024 * 1 * 1 * 1048576 * 4096 * 1 = 4398046511104 := by
  refine ⟨by decide, by decide, by decide, by decide⟩

/-! ## The sweep of the interval accumulator -/

open tseriesBuilder

/-- Inserting a delta only adds it to the list. -/
theorem insertDelta_perm (d : tsDelta) (l : List tsDelta) : (insertDelta d l).Perm (d :: l) := by
  induction l with
  | nil => exact List.Perm.refl _
  | cons x xs ih =>
    unfold insertDelta
    split
    · exact List.Perm.refl _
    · exact (List.Perm.cons x ih).trans (List.Perm.swap d x xs)

/-- Sorting only reorders the deltas. -/
theorem sortDeltas_perm (l : List tsDelta) : (sortDeltas l).Perm l := by
  induction l with
  | nil => exact List.Perm.refl _
  | cons d ds ih =>
    unfold sortDeltas
    exact (insertDelta_perm d _).trans (List.Perm.cons d ih)

/-- The running sum after a sweep is the initial sum plus the sum of the deltas. -/
theorem foldl_sweepStep_fst (ds : List tsDelta) (acc : Int × Int) :
    (ds.foldl sweepStep acc).1 = acc.1 + (ds.map (fun d => d.value)).sum := by
  induction ds generalizing acc with
  | nil => simp
  | cons d ds ih =>
    rw [List.foldl_cons, ih]
    simp only [sweepStep, List.map_cons, List.sum_cons]
    omega

/-- The maximum after a sweep is at least the running sum, when it was so before. -/
theorem foldl_sweepStep_fst_le_snd (ds : List tsDelta) (acc : Int × Int) (h : acc.1 ≤ acc.2) :
    (ds.foldl sweepStep acc).1 ≤ (ds.foldl sweepStep acc).2 := by
  induction ds generalizing acc with
  | nil => simpa using h
  | cons d ds ih =>
    rw [List.foldl_cons]
    apply ih
    simp only [sweepStep]
    omega

/-- A sweep never lowers the maximum. -/
theorem foldl_sweepStep_snd_ge (ds : List tsDelta) (acc : Int × Int) :
    acc.2 ≤ (ds.foldl sweepStep acc).2 := by
  induction ds generalizing acc with
  | nil => simp
  | cons d ds ih =>
    rw [List.foldl_cons]
    refine le_trans ?_ (ih _)
    simp only [sweepStep]
    omega

theorem sum_max_zero_nonneg (ds : List tsDelta) :
    0 ≤ (ds.map (fun d => max d.value 0)).sum := by
  induction ds with
  | nil => simp
  | cons d ds ih =>
    simp only [List.map_cons, List.sum_cons]
    omega

/-- The maximum after a sweep is at most the initial maximum or the initial sum plus the
positive deltas. -/
theorem foldl_sweepStep_snd_le (ds : List tsDelta) (acc : Int × Int) :
    (ds.foldl sweepStep acc).2 ≤
      max acc.2 (acc.1 + (ds.map (fun d => max d.value 0)).sum) := by
  induction ds generalizing acc with
  | nil => simp
  | cons d ds ih =>
    rw [List.foldl_cons]
    have h := ih (sweepStep acc d)
    have hs := sum_max_zero_nonneg ds
    have h1 : (sweepStep acc d).1 = acc.1 + d.value := rfl
    have h2 : (sweepStep acc d).2 = max acc.2 (acc.1 + d.value) := rfl
    rw [h1, h2] at h
    simp only [List.map_cons, List.sum_cons]
    omega

theorem deltasOfEvents_append (es fs : List tsEvent) :
    deltasOfEvents (es ++ fs) = deltasOfEvents es ++ deltasOfEvents fs := by
  induction es with
  | nil => rfl
  | cons e es ih => simp [deltasOfEvents, ih]

/-- The deltas of the recorded events sum to the quantities left active: every closed event
nets to zero. -/
theorem sum_deltasOfEvents (es : List tsEvent) :
    ((deltasOfEvents es).map (fun d => d.value)).sum = (es.map openQuantity).sum := by
  induction es with
  | nil => rfl
  | cons e es ih =>
    cases e with
    | opened t q => simp [deltasOfEvents, deltasOf, openQuantity, ih]
    | closed tStart tEnd q => simp [deltasOfEvents, deltasOf, openQuantity, ih]

/-- With non-negative quantities the positive deltas sum to the quantities of all events. -/
theorem sum_pos_deltasOfEvents (es : List tsEvent) (h : ∀ e ∈ es, 0 ≤ quantity e) :
    ((deltasOfEvents es).map (fun d => max d.value 0)).sum = (es.map quantity).sum := by
  induction es with
  | nil => rfl
  | cons e es ih =>
    have he := h e (List.mem_cons_self _ _)
    have ih2 := ih (fun x hx => h x (List.mem_cons_of_mem _ hx))
    cases e with
    | opened t q =>
      simp only [quantity] at he
      simp only [deltasOfEvents, deltasOf, List.cons_append, List.nil_append, List.map_cons,
        List.sum_cons, quantity, ih2]
      omega
    | closed tStart tEnd q =>
      simp only [quantity] at he
      simp only [deltasOfEvents, deltasOf, List.cons_append, List.nil_append, List.map_cons,
        List.sum_cons, quantity, ih2]
      omega

/-- Final sum of `GetLastAndMax`: the quantities left active. -/
theorem GetLastAndMax_fst (b : tseriesBuilder) :
    b.GetLastAndMax.1 = (b.events.map openQuantity).sum := by
  unfold GetLastAndMax
  rw [foldl_sweepStep_fst, ((sortDeltas_perm _).map _).sum_eq, sum_deltasOfEvents]
  simp

/-- Maximum of `GetLastAndMax`: at least the final sum and at least zero. -/
theorem GetLastAndMax_snd_ge (b : tseriesBuilder) :
    b.GetLastAndMax.1 ≤ b.GetLastAndMax.2 ∧ 0 ≤ b.GetLastAndMax.2 := by
  unfold GetLastAndMax
  exact ⟨foldl_sweepStep_fst_le_snd _ (0, 0) (le_refl _), foldl_sweepStep_snd_ge _ (0, 0)⟩

/-- Maximum of `GetLastAndMax` with non-negative quantities: at most the sum of all the
quantities. -/
theorem GetLastAndMax_snd_le (b : tseriesBuilder) (h : ∀ e ∈ b.events, 0 ≤ quantity e) :
    b.GetLastAndMax.2 ≤ (b.events.map quantity).sum := by
  unfold GetLastAndMax
  have hle := foldl_sweepStep_snd_le (sortDeltas (deltasOfEvents b.events)) (0, 0)
  rw [((sortDeltas_perm _).map _).sum_eq, sum_pos_deltasOfEvents _ h] at hle
  have hnonneg : 0 ≤ (b.events.map quantity).sum :=
    List.sum_nonneg (by
      intro x hx
      obtain ⟨e, he, rfl⟩ := List.mem_map.mp hx
      exact h e he)
  simp only at hle
  omega

/-! ## Memory figures of a report: claims C23 to C27 -/

theorem foldl_AddEventStart (allocs : List memoryAllocation) (b : tseriesBuilder) :
    (allocs.foldl
      (fun b alloc => b.AddEventStart alloc.startKtime (int64OfUint64 alloc.size)) b).events =
      b.events ++ allocs.map
        (fun alloc => tsEvent.opened alloc.startKtime (int64OfUint64 alloc.size)) := by
  induction allocs generalizing b with
  | nil => simp
  | cons a allocs ih =>
    rw [List.foldl_cons, ih]
    simp [AddEventStart]

theorem foldl_AddEvent (allocs : List memoryAllocation) (b : tseriesBuilder) :
    (allocs.foldl
      (fun b alloc => b.AddEvent alloc.startKtime alloc.endKtime (int64OfUint64 alloc.size))
      b).events =
      b.events ++ allocs.map
        (fun alloc =>
          tsEvent.closed alloc.startKtime alloc.endKtime (int64OfUint64 alloc.size)) := by
  induction allocs generalizing b with
  | nil => simp
  | cons a allocs ih =>
    rw [List.foldl_cons, ih]
    simp [AddEvent]

/-- Events that `getStats` records: the current allocations as open events, then the past
allocations as closed events. -/
theorem memTsBuilder_events (agg : aggregator) :
    agg.memTsBuilder.events =
      agg.currentAllocs.map
        (fun alloc => tsEvent.opened alloc.startKtime (int64OfUint64 alloc.size)) ++
      agg.pastAllocs.map
        (fun alloc =>
          tsEvent.closed alloc.startKtime alloc.endKtime (int64OfUint64 alloc.size)) := by
  unfold memTsBuilder
  rw [foldl_AddEvent, foldl_AddEventStart]
  simp [tseriesBuilder.empty]

theorem getStats_current (agg : aggregator) :
    (agg.getStats).1.CurrentMemoryBytes = uint64OfInt64 agg.memTsBuilder.GetLastAndMax.1 := rfl

theorem getStats_max (agg : aggregator) :
    (agg.getStats).1.MaxMemoryBytes = uint64OfInt64 agg.memTsBuilder.GetLastAndMax.2 := rfl

theorem openQuantity_opened (t : Nat) (q : Int) : openQuantity (tsEvent.opened t q) = q := rfl

theorem openQuantity_closed (tStart tEnd : Nat) (q : Int) :
    openQuantity (tsEvent.closed tStart tEnd q) = 0 := rfl

theorem sum_openQuantity_opened (allocs : List memoryAllocation) :
    ((allocs.map
      (fun alloc => tsEvent.opened alloc.startKtime (int64OfUint64 alloc.size))).map
        openQuantity).sum = (allocs.map (fun alloc => int64OfUint64 alloc.size)).sum := by
  induction allocs with
  | nil => rfl
  | cons a allocs ih =>
    rw [List.map_cons, List.map_cons, List.sum_cons, List.map_cons, List.sum_cons, ih,
      openQuantity_opened]

theorem sum_openQuantity_closed (allocs : List memoryAllocation) :
    ((allocs.map
      (fun alloc =>
        tsEvent.closed alloc.startKtime alloc.endKtime (int64OfUint64 alloc.size))).map
        openQuantity).sum = 0 := by
  induction allocs with
  | nil => rfl
  | cons a allocs ih =>
    rw [List.map_cons, List.map_cons, List.sum_cons, ih, openQuantity_closed, add_zero]

/-- The final sum of the accumulator of `getStats` is the sum of `int64(alloc.size)` over the
current allocations. -/
theorem memTsBuilder_last (agg : aggregator) :
    agg.memTsBuilder.GetLastAndMax.1 =
      (agg.currentAllocs.map (fun alloc => int64OfUint64 alloc.size)).sum := by
  rw [GetLastAndMax_fst, memTsBuilder_events, List.map_append, List.sum_append,
    sum_openQuantity_opened, sum_openQuantity_closed, add_zero]

/-- The accumulator of an aggregator without allocations returns zero twice. -/
theorem GetLastAndMax_of_no_allocs {agg : aggregator} (hc : agg.currentAllocs = [])
    (hp : agg.pastAllocs = []) : agg.memTsBuilder.GetLastAndMax = (0, 0) := by
  have he : agg.memTsBuilder.events = [] := by
    rw [memTsBuilder_events, hc, hp]
    rfl
  unfold GetLastAndMax
  rw [he]
  rfl

/-- C23 fails on the code: an aggregator that holds one open allocation of size 100 reports
`CurrentMemoryBytes = 100`, and the report that follows at once, nothing being absorbed in
between, has `CurrentMemoryBytes = 0`. -/
theorem C23_second_report_counterexample :
    (({ aggregatorAt 100 0 1000000000 with
        currentAllocs := [{ startKtime := 0, endKtime := 0, size := 100, isLeaked := false }] }
      : aggregator).getStats).1.CurrentMemoryBytes = 100 ∧
    (((({ aggregatorAt 100 0 1000000000 with
        currentAllocs := [{ startKtime := 0, endKtime := 0, size := 100, isLeaked := false }] }
      : aggregator).getStats).2).getStats).1.CurrentMemoryBytes = 0 ∧
    (100 : Nat) ≠ 0 := by
  refine ⟨by decide, by decide, by decide⟩

/-- C23, amended: `getStats` called twice in succession, nothing being absorbed in between:
the second report has `CurrentMemoryBytes = 0` and `MaxMemoryBytes = 0`, whatever the first
one reported (the aggregator keeps no allocation across reports), and zero utilization,
when `measuredIntervalNs ≤ 0` or when the capacity and the normalization factor are not
zero (no division by zero). -/
theorem C23_second_report (agg : aggregator) :
    (((agg.getStats).2).getStats).1.CurrentMemoryBytes = 0 ∧
    (((agg.getStats).2).getStats).1.MaxMemoryBytes = 0 ∧
    (agg.measuredIntervalNs ≤ 0 →
      (((agg.getStats).2).getStats).1.UtilizationPercentage = some 0) ∧
    (agg.sysCtx.maxGpuThreadsPerDevice0 ≠ 0 → agg.utilizationNormFactor ≠ 0 →
      (((agg.getStats).2).getStats).1.UtilizationPercentage = some 0) := by
  have hzero : ((agg.getStats).2).memTsBuilder.GetLastAndMax = (0, 0) :=
    GetLastAndMax_of_no_allocs rfl rfl
  have hnonpos : agg.measuredIntervalNs ≤ 0 →
      (((agg.getStats).2).getStats).1.UtilizationPercentage = some 0 := by
    intro h
    have h2 : ¬ ((agg.getStats).2).measuredIntervalNs > 0 := by
      show ¬ agg.measuredIntervalNs > 0
      omega
    rw [getStats_utilization, if_neg h2]
  refine ⟨?_, ?_, hnonpos, ?_⟩
  · rw [getStats_current, hzero]
    rfl
  · rw [getStats_max, hzero]
    rfl
  · intro hcap hfactor
    by_cases h : 0 < agg.measuredIntervalNs
    · have h2 : 0 < ((agg.getStats).2).measuredIntervalNs := h
      obtain ⟨hpos, hres⟩ := getGPUUtilization_of_pos h2
      have hcapq : (((agg.getStats).2).sysCtx.maxGpuThreadsPerDevice0 : ℚ) ≠ 0 := by
        show ((agg.sysCtx.maxGpuThreadsPerDevice0 : Nat) : ℚ) ≠ 0
        exact_mod_cast hcap
      have htotal : ((agg.getStats).2).totalThreadSecondsUsed = 0 := rfl
      rw [htotal, float64Div_of_ne_zero _ (mul_ne_zero hcapq (ne_of_gt hpos)), zero_div] at hres
      have hfactor2 : ((agg.getStats).2).utilizationNormFactor ≠ 0 := hfactor
      rw [getStats_utilization, if_pos h2, hres]
      show float64Div 0 ((agg.getStats).2).utilizationNormFactor = some 0
      rw [float64Div_of_ne_zero _ hfactor2, zero_div]
    · exact hnonpos (by omega)

/-- Witness of C23: capacity 100, normalization factor 2, one open allocation of size 100
and 50 thread-seconds used before the first report. -/
theorem C23_second_report_witness :
    (({ aggregatorAt 100 0 1000000000 with
        totalThreadSecondsUsed := 50, utilizationNormFactor := 2,
        currentAllocs := [{ startKtime := 0, endKtime := 0, size := 100, isLeaked := false }] }
      : aggregator).sysCtx.maxGpuThreadsPerDevice0 ≠ 0 ∧
      ({ aggregatorAt 100 0 1000000000 with
        totalThreadSecondsUsed := 50, utilizationNormFactor := 2,
        currentAllocs := [{ startKtime := 0, endKtime := 0, size := 100, isLeaked := false }] }
      : aggregator).utilizationNormFactor ≠ 0) ∧
    (((({ aggregatorAt 100 0 1000000000 with
        totalThreadSecondsUsed := 50, utilizationNormFactor := 2,
        currentAllocs := [{ startKtime := 0, endKtime := 0, size := 100, isLeaked := false }] }
      : aggregator).getStats).2).getStats).1.UtilizationPercentage = some 0 :=
  ⟨⟨by decide, by norm_num [aggregatorAt, newAggregator]⟩,
    (C23_second_report { aggregatorAt 100 0 1000000000 with
        totalThreadSecondsUsed := 50, utilizationNormFactor := 2,
        currentAllocs := [{ startKtime := 0, endKtime := 0, size := 100, isLeaked := false }] }
      ).2.2.2 (by decide) (by norm_num [aggregatorAt, newAggregator])⟩

/-- C26: an aggregator whose `currentAllocs` is exactly one open allocation with start 0 and
size 100 and whose `pastAllocs` is exactly one closed allocation with start 0, end 5 and
size 50 reports `CurrentMemoryBytes = 100` and `MaxMemoryBytes = 150`. -/
theorem C26_scenario_current_and_max (agg : aggregator) (a b : memoryAllocation)
    (hc : agg.currentAllocs = [a]) (ha : a.startKtime = 0 ∧ a.size = 100)
    (hp : agg.pastAllocs = [b]) (hb : b.startKtime = 0 ∧ b.endKtime = 5 ∧ b.size = 50) :
    (agg.getStats).1.CurrentMemoryBytes = 100 ∧ (agg.getStats).1.MaxMemoryBytes = 150 := by
  have he : agg.memTsBuilder.events =
      [tsEvent.opened 0 (int64OfUint64 100), tsEvent.closed 0 5 (int64OfUint64 50)] := by
    rw [memTsBuilder_events, hc, hp]
    simp [ha.1, ha.2, hb.1, hb.2.1, hb.2.2]
  have hres : agg.memTsBuilder.GetLastAndMax = (100, 150) := by
    unfold GetLastAndMax
    rw [he]
    decide
  rw [getStats_current, getStats_max, hres]
  exact ⟨by decide, by decide⟩

/-- Witness of C26: the scenario on a device of capacity 100. -/
theorem C26_scenario_current_and_max_witness :
    (({ aggregatorAt 100 0 1000000000 with
        currentAllocs := [{ startKtime := 0, endKtime := 0, size := 100, isLeaked := false }],
        pastAllocs := [{ startKtime := 0, endKtime := 5, size := 50, isLeaked := false }] }
      : aggregator).getStats).1.CurrentMemoryBytes = 100 ∧
    (({ aggregatorAt 100 0 1000000000 with
        currentAllocs := [{ startKtime := 0, endKtime := 0, size := 100, isLeaked := false }],
        pastAllocs := [{ startKtime := 0, endKtime := 5, size := 50, isLeaked := false }] }
      : aggregator).getStats).1.MaxMemoryBytes = 150 :=
  C26_scenario_current_and_max
    { aggregatorAt 100 0 1000000000 with
      currentAllocs := [{ startKtime := 0, endKtime := 0, size := 100, isLeaked := false }],
      pastAllocs := [{ startKtime := 0, endKtime := 5, size := 50, isLeaked := false }] }
    { startKtime := 0, endKtime := 0, size := 100, isLeaked := false }
    { startKtime := 0, endKtime := 5, size := 50, isLeaked := false }
    rfl ⟨rfl, rfl⟩ rfl ⟨rfl, rfl, rfl⟩

theorem quantity_opened (t : Nat) (q : Int) : quantity (tsEvent.opened t q) = q := rfl

theorem quantity_closed (tStart tEnd : Nat) (q : Int) :
    quantity (tsEvent.closed tStart tEnd q) = q := rfl

theorem openQuantity_nonneg {e : tsEvent} (h : 0 ≤ quantity e) : 0 ≤ openQuantity e := by
  cases e with
  | opened t q => exact h
  | closed tStart tEnd q => exact le_refl _

theorem foldl_record_events (calls : List tsEvent) (b : tseriesBuilder) :
    (calls.foldl record b).events = b.events ++ calls := by
  induction calls generalizing b with
  | nil => simp
  | cons e calls ih =>
    rw [List.foldl_cons, ih]
    cases e with
    | opened t q => simp [record, AddEventStart]
    | closed tStart tEnd q => simp [record, AddEvent]

theorem size_le_sizeSum {allocs : List memoryAllocation} {a : memoryAllocation}
    (h : a ∈ allocs) : a.size ≤ sizeSum allocs := by
  induction allocs with
  | nil => simp at h
  | cons x xs ih =>
    simp only [sizeSum, List.map_cons, List.sum_cons]
    rcases List.mem_cons.mp h with rfl | hmem
    · omega
    · have := ih hmem
      simp only [sizeSum] at this
      omega

theorem sizeSum_append (xs ys : List memoryAllocation) :
    sizeSum (xs ++ ys) = sizeSum xs + sizeSum ys := by
  simp [sizeSum]

/-- Below `2 ^ 63` in total, the conversions `int64(alloc.size)` keep the sizes. -/
theorem sum_int64_sizes (allocs : List memoryAllocation) (h : sizeSum allocs < 2 ^ 63) :
    (allocs.map (fun alloc => int64OfUint64 alloc.size)).sum = ((sizeSum allocs : Nat) : Int) := by
  induction allocs with
  | nil => rfl
  | cons a allocs ih =>
    have hcons : sizeSum (a :: allocs) = a.size + sizeSum allocs := by
      simp only [sizeSum, List.map_cons, List.sum_cons]
    rw [hcons] at h
    rw [List.map_cons, List.sum_cons, ih (by omega), int64OfUint64_of_lt (by omega), hcons]
    push_cast
    rfl

theorem map_quantity_opened (allocs : List memoryAllocation) :
    (allocs.map
      (fun alloc => tsEvent.opened alloc.startKtime (int64OfUint64 alloc.size))).map quantity =
      allocs.map (fun alloc => int64OfUint64 alloc.size) := by
  induction allocs with
  | nil => rfl
  | cons a allocs ih =>
    rw [List.map_cons, List.map_cons, ih, quantity_opened, List.map_cons]

theorem map_quantity_closed (allocs : List memoryAllocation) :
    (allocs.map
      (fun alloc =>
        tsEvent.closed alloc.startKtime alloc.endKtime (int64OfUint64 alloc.size))).map
        quantity = allocs.map (fun alloc => int64OfUint64 alloc.size) := by
  induction allocs with
  | nil => rfl
  | cons a allocs ih =>
    rw [List.map_cons, List.map_cons, ih, quantity_closed, List.map_cons]

/-- Quantities that `getStats` records: `int64(alloc.size)` for every allocation. -/
theorem memTsBuilder_quantities (agg : aggregator) :
    agg.memTsBuilder.events.map quantity =
      (agg.currentAllocs ++ agg.pastAllocs).map (fun alloc => int64OfUint64 alloc.size) := by
  rw [memTsBuilder_events, List.map_append, map_quantity_opened, map_quantity_closed,
    List.map_append]

/-- Bounds of the two figures of the accumulator of `getStats` when the sizes of all the
allocations sum below `2 ^ 63`. -/
theorem memTsBuilder_bounds (agg : aggregator)
    (h : sizeSum (agg.currentAllocs ++ agg.pastAllocs) < 2 ^ 63) :
    agg.memTsBuilder.GetLastAndMax.1 = ((sizeSum agg.currentAllocs : Nat) : Int) ∧
    agg.memTsBuilder.GetLastAndMax.1 ≤ agg.memTsBuilder.GetLastAndMax.2 ∧
    agg.memTsBuilder.GetLastAndMax.2 ≤
      ((sizeSum (agg.currentAllocs ++ agg.pastAllocs) : Nat) : Int) := by
  have hcur : sizeSum agg.currentAllocs < 2 ^ 63 := by
    rw [sizeSum_append] at h
    omega
  have hq : ∀ e ∈ agg.memTsBuilder.events, 0 ≤ quantity e := by
    intro e he
    have hmem : quantity e ∈ agg.memTsBuilder.events.map quantity := List.mem_map_of_mem _ he
    rw [memTsBuilder_quantities] at hmem
    obtain ⟨a, ha, hae⟩ := List.mem_map.mp hmem
    have hsize := size_le_sizeSum ha
    rw [← hae, int64OfUint64_of_lt (by omega)]
    exact Int.ofNat_nonneg _
  refine ⟨?_, (GetLastAndMax_snd_ge _).1, ?_⟩
  · rw [memTsBuilder_last, sum_int64_sizes _ hcur]
  · have hle := GetLastAndMax_snd_le agg.memTsBuilder hq
    rw [memTsBuilder_quantities, sum_int64_sizes _ h] at hle
    exact hle

/-- A `uint64` value converted to `int64` and back, below `2 ^ 64`. -/
theorem uint64OfInt64_natCast (n : Nat) (h : n < 2 ^ 64) : uint64OfInt64 (n : Int) = n := by
  unfold uint64OfInt64
  rw [Int.emod_eq_of_lt (Int.ofNat_nonneg n) (by omega), Int.toNat_ofNat]

/-- Below `2 ^ 63` in total, `CurrentMemoryBytes` is the sum of the sizes of the current
allocations. -/
theorem getStats_current_of_sizeSum (agg : aggregator) (h : sizeSum agg.currentAllocs < 2 ^ 63) :
    (agg.getStats).1.CurrentMemoryBytes = sizeSum agg.currentAllocs := by
  rw [getStats_current, memTsBuilder_last, sum_int64_sizes _ h]
  exact uint64OfInt64_natCast _ (by omega)

/-- C27: for every sequence of recording calls (open or closed events) with non-negative
quantities on a fresh accumulator, `GetLastAndMax` returns `(last, max)` with
`max ≥ last`, `last ≥ 0` and `max ≥ 0`; and every `getStats` report of an aggregator whose
allocation sizes sum below `2 ^ 63` has `MaxMemoryBytes ≥ CurrentMemoryBytes`. -/
theorem C27_lastAndMax_ordered (calls : List tsEvent) (agg : aggregator) :
    ((∀ e ∈ calls, 0 ≤ quantity e) →
      (calls.foldl record tseriesBuilder.empty).GetLastAndMax.1 ≤
        (calls.foldl record tseriesBuilder.empty).GetLastAndMax.2 ∧
      0 ≤ (calls.foldl record tseriesBuilder.empty).GetLastAndMax.1 ∧
      0 ≤ (calls.foldl record tseriesBuilder.empty).GetLastAndMax.2) ∧
    (sizeSum (agg.currentAllocs ++ agg.pastAllocs) < 2 ^ 63 →
      (agg.getStats).1.CurrentMemoryBytes ≤ (agg.getStats).1.MaxMemoryBytes) := by
  constructor
  · intro hq
    obtain ⟨hle, hmax⟩ := GetLastAndMax_snd_ge (calls.foldl record tseriesBuilder.empty)
    refine ⟨hle, ?_, hmax⟩
    rw [GetLastAndMax_fst, foldl_record_events]
    apply List.sum_nonneg
    intro x hx
    obtain ⟨e, he, rfl⟩ := List.mem_map.mp hx
    have he2 : e ∈ calls := by simpa [tseriesBuilder.empty] using he
    exact openQuantity_nonneg (hq e he2)
  · intro h
    obtain ⟨hlast, hle, hmax⟩ := memTsBuilder_bounds agg h
    have h0 : (0 : Int) ≤ agg.memTsBuilder.GetLastAndMax.1 := by
      rw [hlast]
      exact Int.ofNat_nonneg _
    have hlt : agg.memTsBuilder.GetLastAndMax.2 < 2 ^ 63 := by omega
    have hcur := uint64OfInt64_of_nonneg h0 (by omega)
    have hmx := uint64OfInt64_of_nonneg (le_trans h0 hle) hlt
    rw [getStats_current, getStats_max]
    have : ((uint64OfInt64 agg.memTsBuilder.GetLastAndMax.1 : Nat) : Int) ≤
        ((uint64OfInt64 agg.memTsBuilder.GetLastAndMax.2 : Nat) : Int) := by
      rw [hcur, hmx]
      exact hle
    exact_mod_cast this

/-- Witness of C27: an open event of quantity 100 at time 0 and a closed event of quantity
50 from 0 to 5 give `(100, 150)`. -/
theorem C27_lastAndMax_ordered_witness :
    (∀ e ∈ [tsEvent.opened 0 100, tsEvent.closed 0 5 50], 0 ≤ quantity e) ∧
    ([tsEvent.opened 0 100, tsEvent.closed 0 5 50].foldl record
      tseriesBuilder.empty).GetLastAndMax = (100, 150) ∧
    ([tsEvent.opened 0 100, tsEvent.closed 0 5 50].foldl record
        tseriesBuilder.empty).GetLastAndMax.1 ≤
      ([tsEvent.opened 0 100, tsEvent.closed 0 5 50].foldl record
        tseriesBuilder.empty).GetLastAndMax.2 :=
  ⟨by decide, by decide,
    ((C27_lastAndMax_ordered [tsEvent.opened 0 100, tsEvent.closed 0 5 50]
      (aggregatorAt 100 0 1000000000)).1 (by decide)).1⟩

/-- Absorbing spans touches no allocation list. -/
theorem foldl_processKernelSpan_allocs (spans : List kernelSpan) (agg : aggregator) :
    (spans.foldl processKernelSpan agg).currentAllocs = agg.currentAllocs ∧
    (spans.foldl processKernelSpan agg).pastAllocs = agg.pastAllocs := by
  induction spans generalizing agg with
  | nil => exact ⟨rfl, rfl⟩
  | cons sp spans ih =>
    rw [List.foldl_cons]
    exact ih (agg.processKernelSpan sp)

theorem processPastData_allocs (agg : aggregator) (data : streamData) :
    (agg.processPastData data).currentAllocs = agg.currentAllocs ∧
    (agg.processPastData data).pastAllocs = agg.pastAllocs ++ data.allocations := by
  obtain ⟨hc, hp⟩ := foldl_processKernelSpan_allocs data.spans agg
  constructor
  · exact hc
  · show (data.spans.foldl processKernelSpan agg).pastAllocs ++ data.allocations = _
    rw [hp]

theorem processCurrentData_allocs (agg : aggregator) (data : streamData) :
    (agg.processCurrentData data).currentAllocs = agg.currentAllocs ++ data.allocations ∧
    (agg.processCurrentData data).pastAllocs = agg.pastAllocs := by
  obtain ⟨hc, hp⟩ := foldl_processKernelSpan_allocs data.spans agg
  constructor
  · show (data.spans.foldl processKernelSpan agg).currentAllocs ++ data.allocations = _
    rw [hc]
  · exact hp

/-- Handler after `getPastData(true)`: closed lists emptied, the rest kept. -/
theorem getPastData_flush_fields (sh : streamHandler) :
    (sh.getPastData true).2.memAllocEvents = sh.memAllocEvents ∧
    (sh.getPastData true).2.kernelLaunches = sh.kernelLaunches ∧
    (sh.getPastData true).2.allocations = [] ∧
    (sh.getPastData true).2.kernelSpans = [] := by
  by_cases h : sh.kernelSpans = [] ∧ sh.allocations = []
  · rw [getPastData_of_empty true h]
    exact ⟨rfl, rfl, h.2, h.1⟩
  · rw [getPastData_of_nonempty true h]
    exact ⟨rfl, rfl, rfl, rfl⟩

/-- Allocations of the snapshot of `getPastData`, when there is one. -/
theorem getPastData_allocations (sh : streamHandler) (flush : Bool) (data : streamData)
    (h : (sh.getPastData flush).1 = some data) : data.allocations = sh.allocations := by
  by_cases he : sh.kernelSpans = [] ∧ sh.allocations = []
  · rw [getPastData_of_empty flush he] at h
    exact Option.noConfusion h
  · rw [getPastData_of_nonempty flush he] at h
    have hd := Option.some.inj h
    subst hd
    rfl

/-- One interval on a handler with exactly one pending allocation and no closed one, and
an aggregator that holds no allocation: the report and the state afterwards. -/
theorem runInterval_one_pending (sh : streamHandler) (agg : aggregator)
    (e : Nat × CudaMemEvent) (now : Nat)
    (hm : sh.memAllocEvents = [e]) (ha : sh.allocations = []) (hs : e.2.Size < 2 ^ 63)
    (hc : agg.currentAllocs = []) (hp : agg.pastAllocs = []) :
    (runInterval sh agg now).1.CurrentMemoryBytes = e.2.Size ∧
    (runInterval sh agg now).2.1.memAllocEvents = [e] ∧
    (runInterval sh agg now).2.1.allocations = [] ∧
    (runInterval sh agg now).2.2.currentAllocs = [] ∧
    (runInterval sh agg now).2.2.pastAllocs = [] := by
  obtain ⟨hfm, -, hfa, -⟩ := getPastData_flush_fields sh
  refine ⟨?_, hfm.trans hm, hfa, rfl, rfl⟩
  -- the aggregator after the past snapshot
  have h1 : ∃ agg1 : aggregator, agg1.currentAllocs = [] ∧ agg1.pastAllocs = [] ∧
      (match (sh.getPastData true).1 with
        | none => agg
        | some data => agg.processPastData data) = agg1 := by
    cases hpast : (sh.getPastData true).1 with
    | none => exact ⟨agg, hc, hp, rfl⟩
    | some data =>
      obtain ⟨h1c, h1p⟩ := processPastData_allocs agg data
      refine ⟨_, h1c.trans hc, ?_, rfl⟩
      rw [h1p, hp, getPastData_allocations sh true data hpast, ha]
      rfl
  obtain ⟨agg1, h1c, h1p, h1eq⟩ := h1
  -- the current snapshot
  have hne : ¬ ((sh.getPastData true).2.kernelLaunches = [] ∧
      (sh.getPastData true).2.memAllocEvents = []) := by
    intro hh
    rw [hfm, hm] at hh
    exact List.cons_ne_nil _ _ hh.2
  have hcur := getCurrentData_of_nonempty now hne
  rw [hfm, hm] at hcur
  have hstats : (runInterval sh agg now).1 =
      ((agg1.processCurrentData
        { key := streamKey.zero,
          spans := ((sh.getPastData true).2.getCurrentKernelSpan now).toList,
          allocations := [e].map openAllocation }).getStats).1 := by
    unfold runInterval
    simp only [h1eq, hcur]
  rw [hstats]
  obtain ⟨h2c, -⟩ := processCurrentData_allocs agg1
    { key := streamKey.zero,
      spans := ((sh.getPastData true).2.getCurrentKernelSpan now).toList,
      allocations := [e].map openAllocation }
  have hsum : sizeSum (agg1.processCurrentData
      { key := streamKey.zero,
        spans := ((sh.getPastData true).2.getCurrentKernelSpan now).toList,
        allocations := [e].map openAllocation }).currentAllocs = e.2.Size := by
    rw [h2c, h1c]
    simp [sizeSum, openAllocation]
  rw [getStats_current_of_sizeSum _ (by rw [hsum]; exact hs), hsum]

/-- C24: a handler with exactly one pending (never freed) allocation, of size `s < 2 ^ 63`,
and no closed one, and an aggregator that holds no allocation (a fresh one in particular).
Over any number of consecutive intervals, each doing `getPastData(true)`,
`getCurrentData(now_i)`, `processPastData` and `processCurrentData` of the returned
snapshots and then `getStats`, there is one report per interval and every report has
`CurrentMemoryBytes = s`. -/
theorem C24_open_allocation_counted_once (sh : streamHandler) (agg : aggregator)
    (e : Nat × CudaMemEvent) (nows : List Nat)
    (hm : sh.memAllocEvents = [e]) (ha : sh.allocations = []) (hs : e.2.Size < 2 ^ 63)
    (hc : agg.currentAllocs = []) (hp : agg.pastAllocs = []) :
    (runIntervals sh agg nows).1.length = nows.length ∧
    ∀ stats ∈ (runIntervals sh agg nows).1, stats.CurrentMemoryBytes = e.2.Size := by
  induction nows generalizing sh agg with
  | nil => exact ⟨rfl, fun stats hmem => by simp [runIntervals] at hmem⟩
  | cons now rest ih =>
    obtain ⟨hcur, hm2, ha2, hc2, hp2⟩ := runInterval_one_pending sh agg e now hm ha hs hc hp
    obtain ⟨hlen, hall⟩ := ih (runInterval sh agg now).2.1 (runInterval sh agg now).2.2
      hm2 ha2 hc2 hp2
    constructor
    · simp only [runIntervals, List.length_cons, hlen]
    · intro stats hmem
      simp only [runIntervals, List.mem_cons] at hmem
      rcases hmem with rfl | hmem
      · exact hcur
      · exact hall stats hmem

/-- Witness of C24: an allocation of size 64 pending at address 100, a fresh aggregator,
three intervals at times 10, 20 and 30. -/
theorem C24_open_allocation_counted_once_witness :
    ((withAllocs [allocEvent 100 64 1]).memAllocEvents = [(100, allocEvent 100 64 1)] ∧
      (withAllocs [allocEvent 100 64 1]).allocations = [] ∧
      ((100, allocEvent 100 64 1) : Nat × CudaMemEvent).2.Size < 2 ^ 63 ∧
      (newAggregator { maxGpuThreadsPerDevice0 := 100 }).currentAllocs = [] ∧
      (newAggregator { maxGpuThreadsPerDevice0 := 100 }).pastAllocs = []) ∧
    ((runIntervals (withAllocs [allocEvent 100 64 1])
        (newAggregator { maxGpuThreadsPerDevice0 := 100 }) [10, 20, 30]).1.map
      (fun stats => stats.CurrentMemoryBytes)) = [64, 64, 64] ∧
    (runIntervals (withAllocs [allocEvent 100 64 1])
      (newAggregator { maxGpuThreadsPerDevice0 := 100 }) [10, 20, 30]).1.length = 3 :=
  ⟨⟨by decide, by decide, by decide, by decide, by decide⟩, by decide,
    (C24_open_allocation_counted_once (withAllocs [allocEvent 100 64 1])
      (newAggregator { maxGpuThreadsPerDevice0 := 100 }) (100, allocEvent 100 64 1)
      [10, 20, 30] (by decide) (by decide) (by decide) (by decide) (by decide)).1⟩

/-- The accumulator with a single closed event of non-negative quantity `q` from `t0` to
`t1 > t0` ends at 0 with maximum `q`. -/
theorem GetLastAndMax_single_closed (t0 t1 : Nat) (q : Int) (ht : t0 < t1) (hq : 0 ≤ q) :
    ({ events := [tsEvent.closed t0 t1 q] } : tseriesBuilder).GetLastAndMax = (0, q) := by
  have hbefore : deltaBefore { time := t0, isClose := false, value := q }
      { time := t1, isClose := true, value := -q } = true := by
    simp [deltaBefore, ht]
  have hsorted : sortDeltas (deltasOfEvents [tsEvent.closed t0 t1 q]) =
      [{ time := t0, isClose := false, value := q },
       { time := t1, isClose := true, value := -q }] := by
    show insertDelta _ (insertDelta _ []) = _
    show insertDelta _ [_] = _
    unfold insertDelta
    rw [if_pos hbefore]
  unfold GetLastAndMax
  rw [hsorted]
  simp only [List.foldl_cons, List.foldl_nil, sweepStep]
  refine Prod.ext ?_ ?_
  · show 0 + q + -q = 0
    omega
  · show max (max 0 (0 + q)) (0 + q + -q) = q
    omega

/-- C25: round trip.  A fresh handler handles an allocate event (size `s < 2 ^ 63`, time
`t0`) and then a free event of the same address (time `t1 > t0`); one interval on that
handler and a fresh aggregator (`getPastData(true)`, `getCurrentData`, both snapshots
absorbed, `getStats`) reports `CurrentMemoryBytes = 0` and `MaxMemoryBytes = s`. -/
theorem C25_alloc_free_round_trip (a f : CudaMemEvent) (sysCtx : systemContext) (now : Nat)
    (ha : a.Type_ = CudaMemAlloc) (hf : f.Type_ ≠ CudaMemAlloc) (haddr : f.Addr = a.Addr)
    (hs : a.Size < 2 ^ 63) (ht : a.Header.Ktime_ns < f.Header.Ktime_ns) :
    (runInterval ((newStreamHandler.handleMemEvent a).handleMemEvent f)
      (newAggregator sysCtx) now).1.CurrentMemoryBytes = 0 ∧
    (runInterval ((newStreamHandler.handleMemEvent a).handleMemEvent f)
      (newAggregator sysCtx) now).1.MaxMemoryBytes = a.Size := by
  have hget : GoMap.get (newStreamHandler.handleMemEvent a).memAllocEvents f.Addr = some a := by
    rw [handleMemEvent_alloc ha, haddr]
    exact GoMap.get_set_self _ _ _
  have hsh : (newStreamHandler.handleMemEvent a).handleMemEvent f =
      { newStreamHandler with
        allocations := [{ startKtime := a.Header.Ktime_ns, endKtime := f.Header.Ktime_ns,
                          size := a.Size, isLeaked := false }] } := by
    rw [handleMemEvent_free_some hf hget, handleMemEvent_alloc ha, haddr]
    simp [newStreamHandler, GoMap.set, GoMap.delete]
  rw [hsh]
  have hevents : (runInterval
      { newStreamHandler with
        allocations := [{ startKtime := a.Header.Ktime_ns, endKtime := f.Header.Ktime_ns,
                          size := a.Size, isLeaked := false }] }
      (newAggregator sysCtx) now).1 =
      (({ newAggregator sysCtx with
          pastAllocs := [{ startKtime := a.Header.Ktime_ns, endKtime := f.Header.Ktime_ns,
                           size := a.Size, isLeaked := false }] } : aggregator).getStats).1 :=
    rfl
  rw [hevents]
  have hbuilder : ({ newAggregator sysCtx with
      pastAllocs := [{ startKtime := a.Header.Ktime_ns, endKtime := f.Header.Ktime_ns,
                       size := a.Size, isLeaked := false }] } : aggregator).memTsBuilder =
      { events := [tsEvent.closed a.Header.Ktime_ns f.Header.Ktime_ns (a.Size : Int)] } := by
    have hconv := int64OfUint64_of_lt hs
    show ({ events := [] ++ [tsEvent.closed a.Header.Ktime_ns f.Header.Ktime_ns
      (int64OfUint64 a.Size)] } : tseriesBuilder) = _
    rw [hconv]
    rfl
  rw [getStats_current, getStats_max, hbuilder,
    GetLastAndMax_single_closed _ _ _ ht (Int.ofNat_nonneg _)]
  exact ⟨rfl, uint64OfInt64_natCast _ (by omega)⟩

/-- Witness of C25: address 100 allocated with size 64 at time 1 and freed at time 9. -/
theorem C25_alloc_free_round_trip_witness :
    ((allocEvent 100 64 1).Type_ = CudaMemAlloc ∧ (freeEvent 100 0 9).Type_ ≠ CudaMemAlloc ∧
      (freeEvent 100 0 9).Addr = (allocEvent 100 64 1).Addr ∧
      (allocEvent 100 64 1).Size < 2 ^ 63 ∧
      (allocEvent 100 64 1).Header.Ktime_ns < (freeEvent 100 0 9).Header.Ktime_ns) ∧
    (runInterval ((newStreamHandler.handleMemEvent (allocEvent 100 64 1)).handleMemEvent
        (freeEvent 100 0 9))
      (newAggregator { maxGpuThreadsPerDevice0 := 100 }) 20).1.CurrentMemoryBytes = 0 ∧
    (runInterval ((newStreamHandler.handleMemEvent (allocEvent 100 64 1)).handleMemEvent
        (freeEvent 100 0 9))
      (newAggregator { maxGpuThreadsPerDevice0 := 100 }) 20).1.MaxMemoryBytes =
      (allocEvent 100 64 1).Size :=
  ⟨⟨by decide, by decide, by decide, by decide, by decide⟩,
    C25_alloc_free_round_trip (allocEvent 100 64 1) (freeEvent 100 0 9)
      { maxGpuThreadsPerDevice0 := 100 } 20 (by decide) (by decide) (by decide) (by decide)
      (by decide)⟩

/-! ## Launch accounting and stream end: claims C31, C32 and C35 -/

/-- The launches earlier than `ts` and the launches at or after `ts` make up the list. -/
theorem length_filter_lt_add_ge (launches : List CudaKernelLaunch) (ts : Nat) :
    (launches.filter (fun launch => decide (launch.Header.Ktime_ns < ts))).length +
      (launches.filter (fun launch => decide (launch.Header.Ktime_ns ≥ ts))).length =
      launches.length := by
  induction launches with
  | nil => rfl
  | cons l ls ih =>
    by_cases h : l.Header.Ktime_ns < ts
    · rw [List.filter_cons_of_pos (by simpa using h),
        List.filter_cons_of_neg (by simpa using h)]
      simp only [List.length_cons]
      omega
    · rw [List.filter_cons_of_neg (by simpa using h),
        List.filter_cons_of_pos (by simpa using h)]
      simp only [List.length_cons]
      omega

theorem kernelSum_append_singleton (spans : List kernelSpan) (span : kernelSpan) :
    kernelSum (spans ++ [span]) = kernelSum spans + span.numKernels := by
  simp [kernelSum]

/-- A synchronization moves launches from the pending list into a span, one for one. -/
theorem markSynchronization_count (sh : streamHandler) (ts : Nat) :
    kernelSum (sh.markSynchronization ts).kernelSpans +
      (sh.markSynchronization ts).kernelLaunches.length =
      kernelSum sh.kernelSpans + sh.kernelLaunches.length := by
  cases h : sh.getCurrentKernelSpan ts with
  | none => rw [markSynchronization_of_none h]
  | some span =>
    obtain ⟨-, -, -, hn, -⟩ := getCurrentKernelSpan_fields h
    rw [markSynchronization_of_some h]
    simp only
    rw [kernelSum_append_singleton, hn]
    have hlen := length_filter_lt_add_ge sh.kernelLaunches ts
    unfold folded
    omega

/-- Launch accounting from any starting handler. -/
theorem count_foldl (ops : List Op) (sh : streamHandler)
    (hops : ∀ op ∈ ops, op.isLaunchOrSync = true) :
    kernelSum (ops.foldl Op.apply sh).kernelSpans +
      (ops.foldl Op.apply sh).kernelLaunches.length =
      kernelSum sh.kernelSpans + sh.kernelLaunches.length + (ops.filter Op.isLaunch).length := by
  induction ops generalizing sh with
  | nil => simp
  | cons op ops ih =>
    rw [List.foldl_cons, ih _ (fun o ho => hops o (List.mem_cons_of_mem _ ho))]
    have hop := hops op (List.mem_cons_self _ _)
    cases op with
    | handleKernelLaunch event =>
      have h1 : (Op.apply sh (Op.handleKernelLaunch event)).kernelLaunches.length =
          sh.kernelLaunches.length + 1 := by
        simp [Op.apply, handleKernelLaunch]
      have h2 : (Op.apply sh (Op.handleKernelLaunch event)).kernelSpans = sh.kernelSpans := rfl
      have h3 : ((Op.handleKernelLaunch event :: ops).filter Op.isLaunch).length =
          (ops.filter Op.isLaunch).length + 1 := by
        simp [Op.isLaunch]
      rw [h1, h2, h3]
      omega
    | markSynchronization ts =>
      have h3 : ((Op.markSynchronization ts :: ops).filter Op.isLaunch).length =
          (ops.filter Op.isLaunch).length := by
        simp [Op.isLaunch]
      rw [h3]
      show kernelSum (sh.markSynchronization ts).kernelSpans +
        (sh.markSynchronization ts).kernelLaunches.length + _ = _
      rw [markSynchronization_count]
    | handleMemEvent event => simp [Op.isLaunchOrSync] at hop
    | getPastData flush => simp [Op.isLaunchOrSync] at hop
    | getCurrentData now => simp [Op.isLaunchOrSync] at hop
    | markEnd nowTs => simp [Op.isLaunchOrSync] at hop

/-- The loop of `getCurrentKernelSpan` sees only the launches earlier than `maxTime`. -/
theorem foldl_spanStep_filter (maxTime : Nat) (launches : List CudaKernelLaunch)
    (span : kernelSpan) :
    (launches.filter (fun launch => decide (launch.Header.Ktime_ns < maxTime))).foldl
        (spanStep maxTime) span = launches.foldl (spanStep maxTime) span := by
  induction launches generalizing span with
  | nil => rfl
  | cons l ls ih =>
    by_cases h : l.Header.Ktime_ns < maxTime
    · rw [List.filter_cons_of_pos (by simpa using h), List.foldl_cons, List.foldl_cons, ih]
    · rw [List.filter_cons_of_neg (by simpa using h), List.foldl_cons, spanStep_skip h, ih]

/-- The span bounded by `ts` is the one computed from the launches earlier than `ts`
alone. -/
theorem getCurrentKernelSpan_folded (sh : streamHandler) (ts : Nat) :
    (withLaunches (folded sh ts)).getCurrentKernelSpan ts = sh.getCurrentKernelSpan ts := by
  unfold getCurrentKernelSpan
  have h : (withLaunches (folded sh ts)).kernelLaunches.foldl (spanStep ts) (spanInit ts) =
      sh.kernelLaunches.foldl (spanStep ts) (spanInit ts) :=
    foldl_spanStep_filter ts sh.kernelLaunches (spanInit ts)
  rw [h]

/-- A synchronization splits the pending launches into the folded ones and the ones that
stay pending. -/
theorem markSynchronization_partition (sh : streamHandler) (ts : Nat) :
    (folded sh ts ++ (sh.markSynchronization ts).kernelLaunches).Perm sh.kernelLaunches := by
  cases h : sh.getCurrentKernelSpan ts with
  | none =>
    rw [markSynchronization_of_none h, (getCurrentKernelSpan_eq_none_iff sh ts).mp h]
    exact List.Perm.refl _
  | some span =>
    rw [markSynchronization_of_some h]
    have hfilter : sh.kernelLaunches.filter (fun launch => decide (launch.Header.Ktime_ns ≥ ts)) =
        sh.kernelLaunches.filter
          (fun launch => !decide (launch.Header.Ktime_ns < ts)) := by
      apply List.filter_congr
      intro l _
      by_cases hl : l.Header.Ktime_ns < ts
      · simp [hl]
      · simp [hl, Nat.not_lt.mp hl]
    show (folded sh ts ++
      sh.kernelLaunches.filter (fun launch => decide (launch.Header.Ktime_ns ≥ ts))).Perm _
    rw [hfilter]
    exact List.filter_append_perm _ _

/-- Group of a synchronization and closed spans after it. -/
theorem markSynchronization_group (sh : streamHandler) (ts : Nat) :
    (sh.markSynchronization ts).kernelSpans =
      sh.kernelSpans ++
        (if folded sh ts = [] then [] else [(ts, folded sh ts)]).filterMap
          (fun g => (withLaunches g.2).getCurrentKernelSpan g.1) := by
  cases h : sh.getCurrentKernelSpan ts with
  | none =>
    rw [markSynchronization_of_none h, if_pos ((getCurrentKernelSpan_eq_none_iff sh ts).mp h)]
    simp
  | some span =>
    have hne : folded sh ts ≠ [] := (getCurrentKernelSpan_fields h).2.2.2.2
    rw [markSynchronization_of_some h, if_neg hne]
    simp [getCurrentKernelSpan_folded, h]

/-- Closed spans and pending launches after a sequence of launches and synchronizations,
from any starting handler, in terms of the folded groups. -/
theorem groups_foldl (ops : List Op) (sh : streamHandler)
    (hops : ∀ op ∈ ops, op.isLaunchOrSync = true) :
    (ops.foldl Op.apply sh).kernelSpans =
      sh.kernelSpans ++ (foldedGroups ops sh).filterMap
        (fun g => (withLaunches g.2).getCurrentKernelSpan g.1) ∧
    (((foldedGroups ops sh).map (fun g => g.2)).flatten ++
      (ops.foldl Op.apply sh).kernelLaunches).Perm (sh.kernelLaunches ++ launchesOf ops) := by
  induction ops generalizing sh with
  | nil => simp [foldedGroups, launchesOf]
  | cons op ops ih =>
    have hop := hops op (List.mem_cons_self _ _)
    obtain ⟨ih1, ih2⟩ := ih (Op.apply sh op) (fun o ho => hops o (List.mem_cons_of_mem _ ho))
    rw [List.foldl_cons]
    cases op with
    | handleKernelLaunch event =>
      constructor
      · rw [ih1]
        simp [foldedGroups, Op.apply, handleKernelLaunch]
      · have hl : launchesOf (Op.handleKernelLaunch event :: ops) = event :: launchesOf ops := by
          simp [launchesOf, Op.launchEvent]
        rw [hl]
        have hg : foldedGroups (Op.handleKernelLaunch event :: ops) sh =
            foldedGroups ops (Op.apply sh (Op.handleKernelLaunch event)) := by
          simp [foldedGroups]
        rw [hg]
        refine ih2.trans ?_
        simp [Op.apply, handleKernelLaunch]
    | markSynchronization ts =>
      have hg : foldedGroups (Op.markSynchronization ts :: ops) sh =
          (if folded sh ts = [] then [] else [(ts, folded sh ts)]) ++
            foldedGroups ops (Op.apply sh (Op.markSynchronization ts)) := rfl
      have hl : launchesOf (Op.markSynchronization ts :: ops) = launchesOf ops := by
        simp [launchesOf, Op.launchEvent]
      constructor
      · rw [ih1, hg, List.filterMap_append, ← List.append_assoc]
        congr 1
        exact markSynchronization_group sh ts
      · rw [hg, hl]
        have hflat : ((((if folded sh ts = [] then [] else [(ts, folded sh ts)]) ++
            foldedGroups ops (Op.apply sh (Op.markSynchronization ts))).map
              (fun g => g.2)).flatten) =
            folded sh ts ++ ((foldedGroups ops (Op.apply sh (Op.markSynchronization ts))).map
              (fun g => g.2)).flatten := by
          by_cases hf : folded sh ts = []
          · simp [hf]
          · simp [hf]
        rw [hflat, List.append_assoc]
        refine (List.Perm.append_left _ ih2).trans ?_
        rw [← List.append_assoc]
        exact List.Perm.append_right _ (markSynchronization_partition sh ts)
    | handleMemEvent event => simp [Op.isLaunchOrSync] at hop
    | getPastData flush => simp [Op.isLaunchOrSync] at hop
    | getCurrentData now => simp [Op.isLaunchOrSync] at hop
    | markEnd nowTs => simp [Op.isLaunchOrSync] at hop

/-- C31: no double counting of launches.  After any sequence of `handleKernelLaunch` and
`markSynchronization` calls on a new handler, timestamps and order arbitrary, the sum of
`numKernels` over the closed spans plus the number of pending launches is the number of
`handleKernelLaunch` calls made.  Every launch is folded into at most one closed span: the
closed spans are, in order, the spans computed each from one group of launches (the
launches pending and earlier than `ts` at a synchronization), and these groups together
with the launches still pending are, up to order, exactly the launches handled, each
occurrence once.  At every synchronization the folded launches and the launches that stay
pending are, up to order, the launches pending before. -/
theorem C31_launches_counted_once (ops : List Op)
    (hops : ∀ op ∈ ops, op.isLaunchOrSync = true) :
    kernelSum (run ops).kernelSpans + (run ops).kernelLaunches.length =
      (ops.filter Op.isLaunch).length ∧
    (∀ (sh : streamHandler) (ts : Nat),
      kernelSum (sh.markSynchronization ts).kernelSpans +
        (sh.markSynchronization ts).kernelLaunches.length =
        kernelSum sh.kernelSpans + sh.kernelLaunches.length) ∧
    (run ops).kernelSpans =
      (foldedGroups ops newStreamHandler).filterMap
        (fun g => (withLaunches g.2).getCurrentKernelSpan g.1) ∧
    (((foldedGroups ops newStreamHandler).map (fun g => g.2)).flatten ++
      (run ops).kernelLaunches).Perm (launchesOf ops) ∧
    (∀ (sh : streamHandler) (ts : Nat),
      (folded sh ts ++ (sh.markSynchronization ts).kernelLaunches).Perm sh.kernelLaunches) := by
  obtain ⟨hspans, hperm⟩ := groups_foldl ops newStreamHandler hops
  refine ⟨?_, markSynchronization_count, ?_, ?_, markSynchronization_partition⟩
  · have h := count_foldl ops newStreamHandler hops
    simpa [run, newStreamHandler, kernelSum] using h
  · simpa [run, newStreamHandler] using hspans
  · simpa [run, newStreamHandler] using hperm

/-- Witness of C31: launches at times 1, 9 and 3, a synchronization at 5 between them and
one at 4 at the end. -/
theorem C31_launches_counted_once_witness :
    (∀ op ∈ [Op.handleKernelLaunch (launchAt 1 8 2), Op.handleKernelLaunch (launchAt 9 8 2),
        Op.markSynchronization 5, Op.handleKernelLaunch (launchAt 3 8 2),
        Op.markSynchronization 4], op.isLaunchOrSync = true) ∧
    (run [Op.handleKernelLaunch (launchAt 1 8 2), Op.handleKernelLaunch (launchAt 9 8 2),
        Op.markSynchronization 5, Op.handleKernelLaunch (launchAt 3 8 2),
        Op.markSynchronization 4]).kernelSpans =
      [{ startKtime := 1, endKtime := 5, avgThreadCount := 16, numKernels := 1 },
       { startKtime := 3, endKtime := 4, avgThreadCount := 16, numKernels := 1 }] ∧
    foldedGroups [Op.handleKernelLaunch (launchAt 1 8 2), Op.handleKernelLaunch (launchAt 9 8 2),
        Op.markSynchronization 5, Op.handleKernelLaunch (launchAt 3 8 2),
        Op.markSynchronization 4] newStreamHandler = [(5, [launchAt 1 8 2]), (4, [launchAt 3 8 2])] ∧
    (run [Op.handleKernelLaunch (launchAt 1 8 2), Op.handleKernelLaunch (launchAt 9 8 2),
        Op.markSynchronization 5, Op.handleKernelLaunch (launchAt 3 8 2),
        Op.markSynchronization 4]).kernelLaunches = [launchAt 9 8 2] ∧
    kernelSum (run [Op.handleKernelLaunch (launchAt 1 8 2), Op.handleKernelLaunch (launchAt 9 8 2),
        Op.markSynchronization 5, Op.handleKernelLaunch (launchAt 3 8 2),
        Op.markSynchronization 4]).kernelSpans +
      (run [Op.handleKernelLaunch (launchAt 1 8 2), Op.handleKernelLaunch (launchAt 9 8 2),
        Op.markSynchronization 5, Op.handleKernelLaunch (launchAt 3 8 2),
        Op.markSynchronization 4]).kernelLaunches.length =
      ([Op.handleKernelLaunch (launchAt 1 8 2), Op.handleKernelLaunch (launchAt 9 8 2),
        Op.markSynchronization 5, Op.handleKernelLaunch (launchAt 3 8 2),
        Op.markSynchronization 4].filter Op.isLaunch).length ∧
    (((foldedGroups [Op.handleKernelLaunch (launchAt 1 8 2), Op.handleKernelLaunch (launchAt 9 8 2),
        Op.markSynchronization 5, Op.handleKernelLaunch (launchAt 3 8 2),
        Op.markSynchronization 4] newStreamHandler).map (fun g => g.2)).flatten ++
      (run [Op.handleKernelLaunch (launchAt 1 8 2), Op.handleKernelLaunch (launchAt 9 8 2),
        Op.markSynchronization 5, Op.handleKernelLaunch (launchAt 3 8 2),
        Op.markSynchronization 4]).kernelLaunches).Perm (launchesOf [Op.handleKernelLaunch (launchAt 1 8 2), Op.handleKernelLaunch (launchAt 9 8 2),
        Op.markSynchronization 5, Op.handleKernelLaunch (launchAt 3 8 2),
        Op.markSynchronization 4]) :=
  ⟨by decide, by decide, by decide, by decide,
    (C31_launches_counted_once [Op.handleKernelLaunch (launchAt 1 8 2), Op.handleKernelLaunch (launchAt 9 8 2),
        Op.markSynchronization 5, Op.handleKernelLaunch (launchAt 3 8 2),
        Op.markSynchronization 4] (by decide)).1,
    (C31_launches_counted_once [Op.handleKernelLaunch (launchAt 1 8 2), Op.handleKernelLaunch (launchAt 9 8 2),
        Op.markSynchronization 5, Op.handleKernelLaunch (launchAt 3 8 2),
        Op.markSynchronization 4] (by decide)).2.2.2.1⟩

/-- After a synchronization at `ts` every pending launch is at or after `ts`. -/
theorem markSynchronization_pending (sh : streamHandler) (ts : Nat) :
    ∀ l ∈ (sh.markSynchronization ts).kernelLaunches, ts ≤ l.Header.Ktime_ns := by
  intro l hl
  cases h : sh.getCurrentKernelSpan ts with
  | none =>
    rw [markSynchronization_of_none h] at hl
    have hnil := (getCurrentKernelSpan_eq_none_iff sh ts).mp h
    exact Nat.not_lt.mp ((folded_eq_nil_iff sh ts).mp hnil l hl)
  | some span =>
    rw [markSynchronization_of_some h] at hl
    simp only [List.mem_filter, decide_eq_true_eq] at hl
    exact hl.2

/-- No span bounded by `t` when every pending launch is at or after `ts ≥ t`. -/
theorem getCurrentKernelSpan_none_of_pending {sh : streamHandler} {ts t : Nat} (ht : t ≤ ts)
    (h : ∀ l ∈ sh.kernelLaunches, ts ≤ l.Header.Ktime_ns) :
    sh.getCurrentKernelSpan t = none :=
  (getCurrentKernelSpan_eq_none_iff sh t).mpr
    ((folded_eq_nil_iff sh t).mpr (fun l hl => Nat.not_lt.mpr (le_trans ht (h l hl))))

/-- Pending launches after a successful `markEnd`: those left by the synchronization. -/
theorem markEnd_ok_kernelLaunches (sh : streamHandler) (nowTs : Int) :
    (sh.markEnd (.ok nowTs)).2.kernelLaunches =
      (({ sh with processEnded := true } : streamHandler).markSynchronization
        (uint64OfInt64 nowTs)).kernelLaunches := rfl

/-- C32: after `markSynchronization(ts)` every remaining pending launch has a timestamp
`≥ ts`, so `getCurrentKernelSpan(ts)` returns no span; after a successful `markEnd` at time
`now` every pending launch is at or after `uint64(now)` and no open span bounded by
`uint64(now)`, or by an earlier time, remains. -/
theorem C32_no_trailing_span (sh : streamHandler) (ts : Nat) (nowTs : Int) :
    (∀ l ∈ (sh.markSynchronization ts).kernelLaunches, ts ≤ l.Header.Ktime_ns) ∧
    (sh.markSynchronization ts).getCurrentKernelSpan ts = none ∧
    (∀ l ∈ (sh.markEnd (.ok nowTs)).2.kernelLaunches, uint64OfInt64 nowTs ≤ l.Header.Ktime_ns) ∧
    (∀ t : Nat, t ≤ uint64OfInt64 nowTs →
      ((sh.markEnd (.ok nowTs)).2).getCurrentKernelSpan t = none) := by
  have hend : ∀ l ∈ (sh.markEnd (.ok nowTs)).2.kernelLaunches,
      uint64OfInt64 nowTs ≤ l.Header.Ktime_ns := by
    rw [markEnd_ok_kernelLaunches]
    exact markSynchronization_pending _ _
  exact ⟨markSynchronization_pending sh ts,
    getCurrentKernelSpan_none_of_pending (le_refl ts) (markSynchronization_pending sh ts),
    hend, fun t ht => getCurrentKernelSpan_none_of_pending ht hend⟩

/-- Witness of C32: launches at times 7, 30 and 3, stream end at time 20. -/
theorem C32_no_trailing_span_witness :
    ((withLaunches [launchAt 7 8 2, launchAt 30 1 1, launchAt 3 4 4]).markEnd
      (.ok 20)).2.kernelLaunches = [launchAt 30 1 1] ∧
    (15 : Nat) ≤ uint64OfInt64 20 ∧
    (((withLaunches [launchAt 7 8 2, launchAt 30 1 1, launchAt 3 4 4]).markEnd
      (.ok 20)).2).getCurrentKernelSpan 15 = none :=
  ⟨by decide, by decide,
    (C32_no_trailing_span (withLaunches [launchAt 7 8 2, launchAt 30 1 1, launchAt 3 4 4])
      20 20).2.2.2 15 (by decide)⟩

/-- C33: `processPastData(d)` and `processCurrentData(d)` give the same
`totalThreadSecondsUsed`, the one reached by `processKernelSpan` over the spans of `d` in
order, and the same `lastCheckKtime`, `measuredIntervalNs`, `utilizationNormFactor`,
`processEnded` and `sysCtx`.  They differ only in the allocation lists: `processPastData`
appends `d.allocations`, verbatim and in order, to `pastAllocs` and leaves `currentAllocs`
unchanged; `processCurrentData` appends them to `currentAllocs` and leaves `pastAllocs`
unchanged. -/
theorem C33_processPastData_vs_processCurrentData (agg : aggregator) (d : streamData) :
    (agg.processPastData d).totalThreadSecondsUsed =
      (agg.processCurrentData d).totalThreadSecondsUsed ∧
    (agg.processPastData d).totalThreadSecondsUsed =
      (d.spans.foldl processKernelSpan agg).totalThreadSecondsUsed ∧
    (agg.processPastData d).pastAllocs = agg.pastAllocs ++ d.allocations ∧
    (agg.processPastData d).currentAllocs = agg.currentAllocs ∧
    (agg.processCurrentData d).currentAllocs = agg.currentAllocs ++ d.allocations ∧
    (agg.processCurrentData d).pastAllocs = agg.pastAllocs ∧
    (agg.processPastData d).lastCheckKtime = (agg.processCurrentData d).lastCheckKtime ∧
    (agg.processPastData d).measuredIntervalNs = (agg.processCurrentData d).measuredIntervalNs ∧
    (agg.processPastData d).utilizationNormFactor =
      (agg.processCurrentData d).utilizationNormFactor ∧
    (agg.processPastData d).processEnded = (agg.processCurrentData d).processEnded ∧
    (agg.processPastData d).sysCtx = (agg.processCurrentData d).sysCtx := by
  obtain ⟨hpc, hpp⟩ := processPastData_allocs agg d
  obtain ⟨hcc, hcp⟩ := processCurrentData_allocs agg d
  exact ⟨rfl, rfl, hpp, hpc, hcc, hcp, rfl, rfl, rfl, rfl, rfl⟩

theorem sizeSum_perm {xs ys : List memoryAllocation} (h : xs.Perm ys) :
    sizeSum xs = sizeSum ys := by
  unfold sizeSum
  exact (h.map _).sum_eq

/-- C34: when the sizes of all the allocations of the aggregator sum to less than `2 ^ 63`,
the `CurrentMemoryBytes` reported by `getStats` is exactly the sum of the sizes of the
allocations in `currentAllocs` (every closed allocation nets to zero, whatever its start and
end), and it is the same for any other order of the two lists. -/
theorem C34_current_memory_is_open_sum (agg : aggregator)
    (hsum : sizeSum (agg.currentAllocs ++ agg.pastAllocs) < 2 ^ 63) :
    (agg.getStats).1.CurrentMemoryBytes = sizeSum agg.currentAllocs ∧
    (∀ current past : List memoryAllocation,
      current.Perm agg.currentAllocs → past.Perm agg.pastAllocs →
      (({ agg with currentAllocs := current, pastAllocs := past } : aggregator).getStats
        ).1.CurrentMemoryBytes = (agg.getStats).1.CurrentMemoryBytes) := by
  have hcur : sizeSum agg.currentAllocs < 2 ^ 63 := by
    rw [sizeSum_append] at hsum
    omega
  refine ⟨getStats_current_of_sizeSum agg hcur, ?_⟩
  intro current past hc _
  have hcur2 : sizeSum ({ agg with currentAllocs := current, pastAllocs := past }
      : aggregator).currentAllocs < 2 ^ 63 := by
    show sizeSum current < 2 ^ 63
    rw [sizeSum_perm hc]
    exact hcur
  rw [getStats_current_of_sizeSum _ hcur2, getStats_current_of_sizeSum agg hcur]
  exact sizeSum_perm hc

/-- Witness of C34: open allocations of sizes 100 and 30, closed allocations of sizes 50
(from 0 to 5) and 7 (from 9 to 2). -/
theorem C34_current_memory_is_open_sum_witness :
    sizeSum (({ aggregatorAt 100 0 1000000000 with
        currentAllocs := [{ startKtime := 0, endKtime := 0, size := 100, isLeaked := false },
                          { startKtime := 4, endKtime := 0, size := 30, isLeaked := false }],
        pastAllocs := [{ startKtime := 0, endKtime := 5, size := 50, isLeaked := false },
                       { startKtime := 9, endKtime := 2, size := 7, isLeaked := true }] }
      : aggregator).currentAllocs ++
      ({ aggregatorAt 100 0 1000000000 with
        currentAllocs := [{ startKtime := 0, endKtime := 0, size := 100, isLeaked := false },
                          { startKtime := 4, endKtime := 0, size := 30, isLeaked := false }],
        pastAllocs := [{ startKtime := 0, endKtime := 5, size := 50, isLeaked := false },
                       { startKtime := 9, endKtime := 2, size := 7, isLeaked := true }] }
      : aggregator).pastAllocs) < 2 ^ 63 ∧
    (({ aggregatorAt 100 0 1000000000 with
        currentAllocs := [{ startKtime := 0, endKtime := 0, size := 100, isLeaked := false },
                          { startKtime := 4, endKtime := 0, size := 30, isLeaked := false }],
        pastAllocs := [{ startKtime := 0, endKtime := 5, size := 50, isLeaked := false },
                       { startKtime := 9, endKtime := 2, size := 7, isLeaked := true }] }
      : aggregator).getStats).1.CurrentMemoryBytes = 130 :=
  ⟨by decide,
    (C34_current_memory_is_open_sum
      { aggregatorAt 100 0 1000000000 with
        currentAllocs := [{ startKtime := 0, endKtime := 0, size := 100, isLeaked := false },
                          { startKtime := 4, endKtime := 0, size := 30, isLeaked := false }],
        pastAllocs := [{ startKtime := 0, endKtime := 5, size := 50, isLeaked := false },
                       { startKtime := 9, endKtime := 2, size := 7, isLeaked := true }] }
      (by decide)).1⟩

/-- C35: when the time source fails, `markEnd` returns that error and leaves the handler
as it is: `processEnded` keeps its value (it stays false when it was false), no
synchronization is performed (`kernelLaunches` and `kernelSpans` are unchanged) and no
allocation is appended (`allocations` and `memAllocEvents` are unchanged). -/
theorem C35_markEnd_error (sh : streamHandler) (err : String) :
    (sh.markEnd (.error err)).1 = some err ∧
    (sh.markEnd (.error err)).2 = sh ∧
    (sh.markEnd (.error err)).2.processEnded = sh.processEnded ∧
    (sh.processEnded = false → (sh.markEnd (.error err)).2.processEnded = false) ∧
    (sh.markEnd (.error err)).2.kernelLaunches = sh.kernelLaunches ∧
    (sh.markEnd (.error err)).2.kernelSpans = sh.kernelSpans ∧
    (sh.markEnd (.error err)).2.allocations = sh.allocations ∧
    (sh.markEnd (.error err)).2.memAllocEvents = sh.memAllocEvents :=
  ⟨rfl, rfl, rfl, fun h => h, rfl, rfl, rfl, rfl⟩

/-- Witness of C35: a pending launch and a pending allocation, the time source fails. -/
theorem C35_markEnd_error_witness :
    ((withAllocs [allocEvent 100 64 1]).handleKernelLaunch (launchAt 3 8 2)).processEnded
      = false ∧
    (((withAllocs [allocEvent 100 64 1]).handleKernelLaunch (launchAt 3 8 2)).markEnd
      (.error "clock")).2.processEnded = false :=
  ⟨by decide,
    (C35_markEnd_error ((withAllocs [allocEvent 100 64 1]).handleKernelLaunch (launchAt 3 8 2))
      "clock").2.2.2.1 (by decide)⟩

end gpu
